import Mathlib

/-!
Verification of the nordpool-price-display core logic.

The C++ sources under `src/` are shallowly embedded below:

* prices are modelled as exact rationals (`ℚ`); the C code computes with
  `float`, but every claim under study is about the comparison / threshold
  structure of the arithmetic, which the decimal constants of the source
  express exactly in `ℚ`;
* `Arduino String` values are Lean `String`s (the keys and timestamps in
  play are ASCII, so byte-wise `strcmp` order coincides with Lean's
  lexicographic `String` order);
* libc local-time conversions (`localtime_r` / `mktime`) are modelled as a
  fixed offset `off` (seconds) from UTC; daylight-saving transitions are
  not modelled.  `time(nullptr)` is modelled by an explicit `now` argument;
* file and network I/O is modelled at its boundary: the outcome of an HTTP
  fetch or of a persisted-record load is passed in as data.
-/

namespace NPD

/-- First `n` characters of a string (models `String::substring(0,n)`,
`strncpy(dst, src, n)` and `%.ns` on the ASCII strings in play). -/
def takeChars (n : Nat) (s : String) : String :=
  ⟨s.data.take n⟩

/-- Drop the first `n` characters of a string. -/
def dropChars (n : Nat) (s : String) : String :=
  ⟨s.data.drop n⟩

/-- Value of an ASCII digit character, `none` when `isdigit` fails. -/
def digitVal (c : Char) : Option Nat :=
  if '0' ≤ c ∧ c ≤ '9' then some (c.toNat - '0'.toNat) else none

/-- Parse two ASCII digits (models `parseTwoDigits` of `time_utils.cpp`). -/
def parse2 (cs : List Char) : Option Nat :=
  match cs with
  | c0 :: c1 :: _ =>
    match digitVal c0, digitVal c1 with
    | some a, some b => some (a * 10 + b)
    | _, _ => none
  | _ => none

/-- Parse four ASCII digits (models `parseFourDigits` of `time_utils.cpp`). -/
def parse4 (cs : List Char) : Option Nat :=
  match cs with
  | c0 :: c1 :: c2 :: c3 :: _ =>
    match digitVal c0, digitVal c1, digitVal c2, digitVal c3 with
    | some a, some b, some c, some d => some (a * 1000 + b * 100 + c * 10 + d)
    | _, _, _, _ => none
  | _ => none

/-- Zero-pad a natural number to at least `w` digits (models `%0wd`). -/
def padNum (w : Nat) (n : Nat) : String :=
  let s := toString n
  ⟨List.replicate (w - s.length) '0' ++ s.data⟩

/-- Two-digit zero-padded rendering, `%02d`. -/
def pad2 (n : Nat) : String := padNum 2 n

/-- Four-digit zero-padded rendering of a (possibly negative) year, `%Y`. -/
def pad4i (n : Int) : String :=
  if n < 0 then "-" ++ padNum 4 (-n).toNat else padNum 4 n.toNat

/-- Truncating (toward-zero) integer division, the semantics of C `/` on
signed integers. -/
def truncDiv (a b : Int) : Int :=
  if 0 ≤ a then a.fdiv b else -((-a).fdiv b)

end NPD

namespace NPD

/-! ### Constants of the program (`main.cpp`, `nordpool_client.cpp`) -/

def kMaxPoints : Nat := 60

def kMovingAverageWindowHours : Nat := 72

def kMaxMovingAverageWindowSamples : Nat := kMovingAverageWindowHours * 4

def kDefaultMovingAverageKrPerKwh : ℚ := 1

def kRetryDailyIfUnchangedSec : Int := 10 * 60

def kDailyFetchHour : Int := 13

def kDailyFetchMinute : Int := 0

def kValidEpochMin : Int := 1700000000

/-! ### `time_utils.cpp` -/

/-- `normalizeResolutionMinutes` of `time_utils.cpp`. -/
def normalizeResolutionMinutes (resolutionMinutes : Nat) : Nat :=
  if resolutionMinutes = 15 ∨ resolutionMinutes = 30 ∨ resolutionMinutes = 60 then
    resolutionMinutes
  else 60

/-- `isValidClock` of `time_utils.cpp`. -/
def isValidClock (now validEpochMin : Int) : Bool :=
  validEpochMin < now

/-- `daysFromCivil` of `time_utils.cpp` / `nordpool_client.cpp`
(Howard Hinnant's civil-from-days algorithm, C integer division is
truncating). -/
def daysFromCivil (year0 : Int) (month day : Nat) : Int :=
  let year := if month ≤ 2 then year0 - 1 else year0
  let era := truncDiv (if 0 ≤ year then year else year - 399) 400
  let yoe := year - era * 400
  let doy : Int := (153 * ((month : Int) + (if 2 < month then -3 else 9)) + 2).fdiv 5 + day - 1
  let doe := yoe * 365 + yoe.fdiv 4 - yoe.fdiv 100 + doy
  era * 146097 + doe - 719468

/-- Inverse of `daysFromCivil` (libc's civil-date computation inside
`localtime_r`, Hinnant's `civil_from_days`); used only to render date
strings. -/
def civilFromDays (z0 : Int) : Int × Nat × Nat :=
  let z := z0 + 719468
  let era := z.fdiv 146097
  let doe := (z - era * 146097).toNat
  let yoe := (doe - doe / 1460 + doe / 36524 - doe / 146096) / 365
  let y : Int := (yoe : Int) + era * 400
  let doy := doe - (365 * yoe + yoe / 4 - yoe / 100)
  let mp := (5 * doy + 2) / 153
  let d := doy - (153 * mp + 2) / 5 + 1
  let m := if mp < 10 then mp + 3 else mp - 9
  (if mp < 10 then y else y + 1, m, d)

/-- Render a civil date as `YYYY-MM-DD` (`strftime "%Y-%m-%d"`). -/
def formatYmd (c : Int × Nat × Nat) : String :=
  pad4i c.1 ++ "-" ++ pad2 c.2.1 ++ "-" ++ pad2 c.2.2

/-- Local civil day number of an epoch instant under fixed offset `off`. -/
def localDayNumber (off t : Int) : Int :=
  (t + off).fdiv 86400

/-- Second-of-day of an epoch instant in local time under offset `off`. -/
def localSecondOfDay (off t : Int) : Nat :=
  ((t + off).emod 86400).toNat

/-- `intervalKeyFromIso` of `time_utils.cpp`. -/
def intervalKeyFromIso (iso : String) (resolutionMinutes : Nat) : String :=
  if iso.length < 13 then "" else
  let nr := normalizeResolutionMinutes resolutionMinutes
  if 60 ≤ nr ∨ iso.length < 16 then takeChars 13 iso
  else
    let minute := (parse2 (iso.data.drop 14)).getD 0
    let slotMinute := minute - minute % nr
    takeChars 13 iso ++ ":" ++ pad2 slotMinute

/-- `currentIntervalKey` of `time_utils.cpp`; `time(nullptr)` is the
explicit `now`, local time is UTC+`off`. -/
def currentIntervalKey (off now : Int) (resolutionMinutes : Nat) : String :=
  if now < 1700000000 then "" else
  let nr := normalizeResolutionMinutes resolutionMinutes
  let sod := localSecondOfDay off now
  let hour := sod / 3600
  let minute := sod % 3600 / 60
  let slotMinute := minute - minute % nr
  let hourKey := formatYmd (civilFromDays (localDayNumber off now)) ++ "T" ++ pad2 hour
  if 60 ≤ nr then hourKey else hourKey ++ ":" ++ pad2 slotMinute

/-! ### Data model (`app_types.h`) -/

/-- `PricePoint` of `app_types.h`. -/
structure PricePoint where
  startsAt : String := ""
  level : String := "UNKNOWN"
  price : ℚ := 0
deriving Repr, DecidableEq

/-- `PriceState` of `app_types.h`.  The fixed array `points[60]` plus its
`count` field is modelled as the list of the first `count` points; slots
past `count` are never read by the program.  The `resolutionMinutes`
field is the snapshot's configured slot resolution: every `.cpp` source
reads and writes `state.resolutionMinutes`, and the spec's data model
lists the configured slot resolution among the snapshot attributes. -/
structure PriceState where
  ok : Bool := false
  error : String := ""
  source : String := "UNKNOWN"
  hasRunningAverage : Bool := false
  runningAverage : ℚ := 0
  currency : String := "SEK"
  resolutionMinutes : Nat := 60
  currentStartsAt : String := ""
  currentLevel : String := "UNKNOWN"
  currentPrice : ℚ := 0
  currentIndex : Int := -1
  points : List PricePoint := []
deriving Repr, DecidableEq

/-- The `count` field of `PriceState`. -/
def PriceState.count (s : PriceState) : Nat := s.points.length

/-- Loop body of `findPricePointIndexForInterval`. -/
def findIdxGo (resolutionMinutes : Nat) (intervalKey : String) :
    List PricePoint → Nat → Int
  | [], _ => -1
  | p :: rest, i =>
    if intervalKeyFromIso p.startsAt resolutionMinutes = intervalKey then (i : Int)
    else findIdxGo resolutionMinutes intervalKey rest (i + 1)

/-- `findPricePointIndexForInterval` of `time_utils.cpp`. -/
def findPricePointIndexForInterval (state : PriceState) (intervalKey : String)
    (resolutionMinutes : Nat) : Int :=
  if intervalKey.isEmpty then -1
  else findIdxGo resolutionMinutes intervalKey state.points 0

/-- `findCurrentPricePointIndex` of `time_utils.cpp`. -/
def findCurrentPricePointIndex (off now : Int) (state : PriceState)
    (resolutionMinutes : Nat) : Int :=
  let key := currentIntervalKey off now resolutionMinutes
  if key.isEmpty then -1
  else findPricePointIndexForInterval state key resolutionMinutes

end NPD

namespace NPD

/-! ### Tier classifier (`nordpool_client.cpp`) -/

/-- `classifyLevelFromAverage` of `nordpool_client.cpp`. -/
def classifyLevelFromAverage (priceKrPerKwh movingAvgKrPerKwh : ℚ) : String :=
  if movingAvgKrPerKwh ≤ 0.0001 then "UNKNOWN" else
  let r := priceKrPerKwh / movingAvgKrPerKwh
  if r ≤ 0.60 then "VERY_CHEAP"
  else if r ≤ 0.90 then "CHEAP"
  else if r < 1.15 then "NORMAL"
  else if r < 1.40 then "EXPENSIVE"
  else "VERY_EXPENSIVE"

/-! ### Byte-wise string comparison

`Arduino String::operator<=` compares with `strcmp`; on the ASCII slot keys
in play this is character-by-character lexicographic comparison. -/

/-- Lexicographic less-or-equal on character lists (`strcmp(a,b) <= 0`). -/
def lexLe : List Char → List Char → Bool
  | [], _ => true
  | _ :: _, [] => false
  | a :: as, b :: bs => if a < b then true else if b < a then false else lexLe as bs

/-- `strcmp`-order less-or-equal on strings. -/
def strLe (s t : String) : Bool := lexLe s.data t.data

/-! ### Rolling average store (`nordpool_client.cpp`, `nordpool_ma_store.h`) -/

/-- `MovingAverageStore` of `nordpool_client.cpp`.  The `magic` / `version`
tags only participate in the validation of persisted bytes, which is
modelled at the load boundary (a load either yields a validated store or
nothing), so they are omitted here.  The fixed array `values[288]` is a
total function; indices at or above `windowSamples` are never read. -/
structure MovingAverageStore where
  resolutionMinutes : Nat := 60
  windowSamples : Nat := kMovingAverageWindowHours
  count : Nat := 0
  head : Nat := 0
  lastSlotKey : String := ""
  values : Nat → ℚ := fun _ => 0

/-- `resetStore` of `nordpool_client.cpp`: a default-constructed store. -/
def resetStore : MovingAverageStore := {}

/-- `movingAverageWindowForResolution` of `nordpool_client.cpp`. -/
def movingAverageWindowForResolution (resolutionMinutes : Nat) : Nat :=
  kMovingAverageWindowHours * 60 / normalizeResolutionMinutes resolutionMinutes

/-- `isIntervalKey` of `nordpool_client.cpp`. -/
def isIntervalKey (value : String) : Bool :=
  value.length == 13 || value.length == 16

/-- `addMovingAverageSample` of `nordpool_client.cpp`. -/
def addMovingAverageSample (store0 : MovingAverageStore) (value : ℚ) :
    MovingAverageStore :=
  let store :=
    if store0.windowSamples = 0 ∨ kMaxMovingAverageWindowSamples < store0.windowSamples
    then { store0 with windowSamples := kMovingAverageWindowHours } else store0
  { store with
    values := fun i => if i = store.head then value else store.values i
    head := (store.head + 1) % store.windowSamples
    count := if store.count < store.windowSamples then store.count + 1 else store.count }

/-- `movingAverageValue` of `nordpool_client.cpp`. -/
def movingAverageValue (store : MovingAverageStore) : ℚ :=
  if store.count = 0 then 0
  else (∑ i ∈ Finset.range store.count, store.values i) / (store.count : ℚ)

/-- Loop of `updateHistoryFromPoints` of `nordpool_client.cpp`.
`lastPersisted` mirrors the local `String lastPersisted`; the store's
`lastSlotKey` is updated through `strncpy(buf, key, 19)`, i.e. truncation
to 19 characters. -/
def updateHistoryGo (resolutionMinutes : Nat) :
    List PricePoint → MovingAverageStore → String → Bool → MovingAverageStore × Bool
  | [], store, _, changed => (store, changed)
  | p :: rest, store, lastPersisted, changed =>
    let pointKey := intervalKeyFromIso p.startsAt resolutionMinutes
    if isIntervalKey pointKey = false then
      updateHistoryGo resolutionMinutes rest store lastPersisted changed
    else if isIntervalKey lastPersisted = true ∧ strLe pointKey lastPersisted = true then
      updateHistoryGo resolutionMinutes rest store lastPersisted changed
    else
      let store1 := addMovingAverageSample store p.price
      let store2 := { store1 with lastSlotKey := takeChars 19 pointKey }
      updateHistoryGo resolutionMinutes rest store2 pointKey true

/-- `updateHistoryFromPoints` of `nordpool_client.cpp`. -/
def updateHistoryFromPoints (state : PriceState) (store : MovingAverageStore) :
    MovingAverageStore × Bool :=
  updateHistoryGo state.resolutionMinutes state.points store store.lastSlotKey false

end NPD

namespace NPD

/-! ### Price feed normalizer (`nordpool_client.cpp`) -/

/-- `applyLevelsFromMovingAverage` of `nordpool_client.cpp`. -/
def applyLevelsFromMovingAverage (state : PriceState) (movingAvgKrPerKwh : ℚ) : PriceState :=
  { state with
    points := state.points.map fun p =>
      { p with level := classifyLevelFromAverage p.price movingAvgKrPerKwh } }

/-- `applyCustomPriceFormula` of `nordpool_client.cpp`: formula applied in
ore (minor units), then converted back to kr. -/
def applyCustomPriceFormula (rawPriceKrPerKwh : ℚ) : ℚ :=
  let rawOre := rawPriceKrPerKwh * 100
  let adjustedOre := 1.25 * rawOre + 84.225
  adjustedOre / 100

/-- Broken-down UTC time, the (already re-based) contents of the
`struct tm` filled by `parseUtcIso`: the source stores `year - 1900` and
`month - 1` and adds them back in `utcToEpochSeconds`; the two steps are
fused here. -/
structure TmRec where
  year : Int
  month : Nat
  day : Nat
  hour : Nat
  minute : Nat
  second : Nat

/-- `parseUtcIso` of `nordpool_client.cpp` / `time_utils.cpp`. -/
def parseUtcIso (iso : String) : Option TmRec :=
  if iso.length < 19 then none else
  let cs := iso.data
  if cs.getD 4 ' ' = '-' ∧ cs.getD 7 ' ' = '-' ∧ cs.getD 10 ' ' = 'T' ∧
      cs.getD 13 ' ' = ':' ∧ cs.getD 16 ' ' = ':' then
    match parse4 cs, parse2 (cs.drop 5), parse2 (cs.drop 8),
        parse2 (cs.drop 11), parse2 (cs.drop 14), parse2 (cs.drop 17) with
    | some y, some mo, some d, some h, some mi, some sec =>
      some ⟨(y : Int), mo, d, h, mi, sec⟩
    | _, _, _, _, _, _ => none
  else none

/-- `utcToEpochSeconds` of `nordpool_client.cpp` / `time_utils.cpp`. -/
def utcToEpochSeconds (tm : TmRec) : Int :=
  let days := daysFromCivil tm.year tm.month tm.day
  let sec := days * 86400 + (tm.hour : Int) * 3600 + (tm.minute : Int) * 60 + (tm.second : Int)
  if sec < 0 then 0 else sec

/-- The `strftime "%Y-%m-%dT%H:%M:00"` rendering of an epoch instant in
local time (fixed offset `off`). -/
def formatLocalIsoSlot (off t : Int) : String :=
  let sod := localSecondOfDay off t
  formatYmd (civilFromDays (localDayNumber off t)) ++ "T" ++ pad2 (sod / 3600) ++ ":" ++
    pad2 (sod % 3600 / 60) ++ ":00"

/-- `utcIsoToLocalIsoSlot` of `nordpool_client.cpp` / `time_utils.cpp`. -/
def utcIsoToLocalIsoSlot (off : Int) (utcIso : String) : String :=
  match parseUtcIso utcIso with
  | none => utcIso
  | some tm =>
    let epochUtc := utcToEpochSeconds tm
    if epochUtc ≤ 0 then utcIso
    else formatLocalIsoSlot off epochUtc

/-- One element of the provider's `multiIndexEntries` JSON array, as read
by `addPoints`: `deliveryStart` (defaulted to "" when missing) and the
price found under `entryPerArea[area]`; `areaPrice = none` models a null
`entryPerArea` object or a missing per-area entry. -/
structure RawEntry where
  deliveryStart : String := ""
  areaPrice : Option ℚ := none

/-- Loop of `addPoints` of `nordpool_client.cpp`.  Nord Pool index prices
are currency/MWh and are converted to kr/kWh before the markup formula. -/
def addPointsGo (off : Int) : List RawEntry → PriceState → Bool → PriceState × Bool
  | [], state, added => (state, added)
  | e :: rest, state, added =>
    if kMaxPoints ≤ state.count then (state, added)
    else
      match e.areaPrice with
      | none => addPointsGo off rest state added
      | some nordPoolPricePerMwh =>
        let energyPriceKrPerKwh := nordPoolPricePerMwh / 1000
        let adjustedPrice := applyCustomPriceFormula energyPriceKrPerKwh
        let p : PricePoint :=
          { startsAt := utcIsoToLocalIsoSlot off e.deliveryStart
            price := adjustedPrice
            level := "UNKNOWN" }
        addPointsGo off rest { state with points := state.points ++ [p] } true

/-- `addPoints` of `nordpool_client.cpp` (a null JSON array is modelled by
the caller passing no entries). -/
def addPoints (off : Int) (entries : List RawEntry) (state : PriceState) :
    PriceState × Bool :=
  addPointsGo off entries state false

/-! ### Moving-average application and fetch pipeline
(`nordpool_client.cpp`) -/

/-- The store `applyMovingAverageToState` works on before ingesting: the
result of `loadStore` (validated persisted store, or `none` on any load /
validation failure, upon which the store is reset), then reset again on a
resolution or window mismatch. -/
def movingAverageInputStore (state : PriceState) (loaded : Option MovingAverageStore) :
    MovingAverageStore :=
  let targetWindow := movingAverageWindowForResolution state.resolutionMinutes
  let store :=
    match loaded with
    | some st => st
    | none => resetStore
  if store.resolutionMinutes ≠ state.resolutionMinutes ∨ store.windowSamples ≠ targetWindow then
    { resetStore with
      resolutionMinutes := state.resolutionMinutes
      windowSamples := targetWindow }
  else store

/-- `assignCurrentFromClock` of `nordpool_client.cpp`. -/
def assignCurrentFromClock (off now : Int) (out0 : PriceState) : PriceState :=
  let idx := findCurrentPricePointIndex off now out0 out0.resolutionMinutes
  let out := { out0 with currentIndex := idx }
  if idx < 0 then out
  else
    let point := out.points.getD idx.toNat {}
    { out with currentStartsAt := point.startsAt, currentPrice := point.price }

/-- `assignCurrentLevel` of `nordpool_client.cpp`. -/
def assignCurrentLevel (out : PriceState) : PriceState :=
  if out.currentIndex < 0 ∨ (out.count : Int) ≤ out.currentIndex then out
  else { out with currentLevel := (out.points.getD out.currentIndex.toNat {}).level }

/-- The state with its resolution normalized, the first mutation
`applyMovingAverageToState` performs. -/
def normResState (state0 : PriceState) : PriceState :=
  { state0 with resolutionMinutes := normalizeResolutionMinutes state0.resolutionMinutes }

/-- The store `applyMovingAverageToState` holds after ingesting the
fetched points into the loaded (or reset) store. -/
def ingestedStore (loaded : Option MovingAverageStore) (state : PriceState) :
    MovingAverageStore :=
  (updateHistoryFromPoints state (movingAverageInputStore state loaded)).1

/-- The moving average `applyMovingAverageToState` classifies against: the
store's average, with the 1.0 kr/kWh default substituted when the store is
empty or the average is at most 0.0001. -/
def effectiveMovingAverage (store : MovingAverageStore) : ℚ :=
  let movingAvg0 :=
    if store.count = 0 then kDefaultMovingAverageKrPerKwh else movingAverageValue store
  if movingAvg0 ≤ 0.0001 then kDefaultMovingAverageKrPerKwh else movingAvg0

/-- The state-updating tail of `applyMovingAverageToState`: record the
running average, classify every slot, pick the current slot from the
clock, fall back to index 0 when no slot matches, and copy the current
slot's level. -/
def applyMovingAverageCore (off now : Int) (movingAvg : ℚ) (state : PriceState) :
    PriceState :=
  let state1 := { state with hasRunningAverage := true, runningAverage := movingAvg }
  let state2 := applyLevelsFromMovingAverage state1 movingAvg
  let state3 := assignCurrentFromClock off now state2
  let state4 :=
    if state3.currentIndex < 0 then
      { state3 with
        currentIndex := 0
        currentStartsAt := (state3.points.getD 0 {}).startsAt
        currentPrice := (state3.points.getD 0 {}).price }
    else state3
  assignCurrentLevel state4

/-- `applyMovingAverageToState` of `nordpool_client.cpp`, assembled from
the stages above.  `loaded` is the outcome of `loadStore`
(persisted-bytes I/O boundary); the `saveStore` write and its logging are
I/O effects with no bearing on the returned state.  Returns the updated
state paired with the store's sample count. -/
def applyMovingAverageToState (off now : Int) (loaded : Option MovingAverageStore)
    (state0 : PriceState) : PriceState × Nat :=
  if state0.count = 0 then (state0, 0) else
  let state := normResState state0
  let store := ingestedStore loaded state
  (applyMovingAverageCore off now (effectiveMovingAverage store) state, store.count)

/-- The normalized point `addPoints` builds from one provider entry
carrying a price. -/
def normalizedPoint (off : Int) (e : RawEntry) : Option PricePoint :=
  e.areaPrice.map fun nordPoolPricePerMwh =>
    { startsAt := utcIsoToLocalIsoSlot off e.deliveryStart
      price := applyCustomPriceFormula (nordPoolPricePerMwh / 1000)
      level := "UNKNOWN" }

/-- Outcome of one `fetchDate` HTTP exchange (transport boundary):
HTTP 204, a failing status, a JSON parse failure (empty body or not), an
"Unauthorized" body, or a parsed body carrying an optional currency field
and the `multiIndexEntries` entries. -/
inductive FetchDateResult where
  | noContent
  | httpError (status : Int)
  | parseFailure (emptyBody : Bool)
  | unauthorized
  | payload (currency : Option String) (entries : List RawEntry)

/-- `fetchDate` of `nordpool_client.cpp`, given the exchange outcome. -/
def fetchDate (off : Int) (r : FetchDateResult) (out : PriceState) : PriceState × Bool :=
  match r with
  | .noContent => (out, true)
  | .httpError status =>
    ({ out with error := if status ≤ 0 then "HTTP GET failed" else "HTTP " ++ toString status },
      false)
  | .parseFailure emptyBody =>
    ({ out with error := if emptyBody then "Empty response body" else "JSON parse failed" },
      false)
  | .unauthorized => ({ out with error := "Nord Pool API unauthorized" }, false)
  | .payload cur entries =>
    let out :=
      match cur with
      | some c => { out with currency := c }
      | none => out
    ((addPoints off entries out).1, true)

/-- The field initialization prologue of `fetchNordPoolPriceInfo`. -/
def initFetchState (resolutionMinutes : Nat) : PriceState :=
  { ok := false, error := "", source := "NORDPOOL", hasRunningAverage := false,
    runningAverage := 0, currency := "SEK",
    resolutionMinutes := normalizeResolutionMinutes resolutionMinutes,
    currentStartsAt := "", currentLevel := "UNKNOWN", currentPrice := 0,
    currentIndex := -1, points := [] }

/-- `fetchNordPoolPriceInfo` of `nordpool_client.cpp`.  WiFi status, the
clock, the persisted-store load and the two HTTP exchanges (today and
tomorrow) are passed in at the I/O boundary; `formatDate` cannot fail in
the fixed-offset time model. -/
def fetchNordPoolPriceInfo (off now : Int) (wifiConnected : Bool)
    (loaded : Option MovingAverageStore) (today tomorrow : FetchDateResult)
    (resolutionMinutes : Nat) : PriceState :=
  let out : PriceState := initFetchState resolutionMinutes
  if wifiConnected = false then { out with error := "WiFi not connected" }
  else if now < 1700000000 then { out with error := "Clock not synced" }
  else
    let r1 := fetchDate off today out
    if r1.2 = false then r1.1
    else
      let r2 := fetchDate off tomorrow r1.1
      if r2.2 = false ∧ r2.1.count = 0 then r2.1
      else
        let out2 := if r2.2 = false then { r2.1 with error := "" } else r2.1
        if out2.count = 0 then { out2 with error := "No prices" }
        else { (applyMovingAverageToState off now loaded out2).1 with ok := true }

/-! ### Price cache (`price_cache.cpp`) -/

/-- One element of the persisted snapshot's `points` JSON array, with the
per-field defaults (`"UNKNOWN"`, `0.0`) already applied. -/
structure CachePoint where
  startsAt : String := ""
  level : String := "UNKNOWN"
  price : ℚ := 0

/-- A parsed persisted price snapshot (JSON boundary), with the per-field
defaults of `priceCacheLoadInternal` already applied; `points = none`
models a missing or non-array `points` field. -/
structure CacheDoc where
  version : Int := 0
  source : String := ""
  currency : String := "SEK"
  resolutionMinutes : Nat := 60
  hasRunningAverage : Bool := false
  runningAverage : ℚ := 0
  points : Option (List CachePoint) := none

def kCacheVersion : Int := 1

/-- `applyCurrentFromIndex` of `price_cache.cpp`. -/
def applyCurrentFromIndex (state : PriceState) (idx : Int) : PriceState :=
  if idx < 0 ∨ (state.count : Int) ≤ idx then state
  else
    let p := state.points.getD idx.toNat {}
    { state with
      currentIndex := idx, currentStartsAt := p.startsAt,
      currentLevel := p.level, currentPrice := p.price }

/-- The points-filling loop of `priceCacheLoadInternal`. -/
def cachePointsFill : List CachePoint → PriceState → PriceState
  | [], out => out
  | item :: rest, out =>
    if kMaxPoints ≤ out.count then out
    else if item.startsAt.length = 0 then cachePointsFill rest out
    else cachePointsFill rest
      { out with points := out.points ++
          [{ startsAt := item.startsAt, level := item.level, price := item.price }] }

/-- The state `priceCacheLoadInternal` builds from a parsed document
before the current-slot checks: a fresh `PriceState` carrying the
document's header fields, filled with the document's points. -/
def cacheDocState (doc : CacheDoc) (pts : List CachePoint) : PriceState :=
  cachePointsFill pts
    { ({} : PriceState) with
      source := doc.source, currency := doc.currency,
      resolutionMinutes := doc.resolutionMinutes,
      hasRunningAverage := doc.hasRunningAverage, runningAverage := doc.runningAverage }

/-- `priceCacheLoadInternal` of `price_cache.cpp`.  `doc0 = none` models a
missing file or a JSON parse failure; the `bool` return plus `out`
parameter of the source is an `Option PriceState` here.  The source
checks `out.source` right after assigning it from the document, which is
the document's `source` field. -/
def priceCacheLoadInternal (off now : Int) (expectedSource : String)
    (requireCurrentHour : Bool) (doc0 : Option CacheDoc) : Option PriceState :=
  match doc0 with
  | none => none
  | some doc =>
    if doc.version ≠ kCacheVersion then none else
    if expectedSource.length ≠ 0 ∧ doc.source ≠ expectedSource then none else
    match doc.points with
    | none => none
    | some pts =>
      let out := cacheDocState doc pts
      if out.count = 0 then none else
      let idx0 := findCurrentPricePointIndex off now out out.resolutionMinutes
      if idx0 < 0 ∧ requireCurrentHour then none else
      let idx := if idx0 < 0 then 0 else idx0
      some { applyCurrentFromIndex out idx with ok := true }

/-- `priceCacheLoadIfCurrent` of `price_cache.cpp`. -/
def priceCacheLoadIfCurrent (off now : Int) (expectedSource : String)
    (doc : Option CacheDoc) : Option PriceState :=
  priceCacheLoadInternal off now expectedSource true doc

/-- `priceCacheLoadIfAvailable` of `price_cache.cpp`. -/
def priceCacheLoadIfAvailable (off now : Int) (expectedSource : String)
    (doc : Option CacheDoc) : Option PriceState :=
  priceCacheLoadInternal off now expectedSource false doc

/-! ### Orchestration (`main.cpp`, `time_utils.cpp`) -/

/-- `dateKeyFromTime` of `main.cpp` / `time_utils.cpp`. -/
def dateKeyFromTime (off : Int) (timeWhen validEpochMin : Int) : String :=
  if isValidClock timeWhen validEpochMin = false then ""
  else formatYmd (civilFromDays (localDayNumber off timeWhen))

/-- `stateContainsDate` of `main.cpp` / `time_utils.cpp`. -/
def stateContainsDate (state : PriceState) (dateKey : String) : Bool :=
  if state.ok = false ∨ state.count = 0 ∨ dateKey.length ≠ 10 then false
  else state.points.any fun p =>
    if p.startsAt.length < 10 then false
    else takeChars 10 p.startsAt == dateKey

/-- `shouldCatchUpMissedDailyUpdate` of `time_utils.cpp` (the `main.cpp`
copy instantiates `dailyFetchHour = 13`, `dailyFetchMinute = 0`,
`validEpochMin = kValidEpochMin`).  In the fixed-offset time model,
"today at `hour:minute` local" is computed from the local day number and
`mktime` cannot fail. -/
def shouldCatchUpMissedDailyUpdate (off now : Int) (state : PriceState)
    (dailyFetchHour dailyFetchMinute : Int) (validEpochMin : Int) : Bool :=
  if isValidClock now validEpochMin = false then false
  else
    let dayNum := localDayNumber off now
    let todayFetchTime := dayNum * 86400 + dailyFetchHour * 3600 + dailyFetchMinute * 60 - off
    if now < todayFetchTime then false
    else
      let tomorrow := (dayNum + 1) * 86400 - off
      if isValidClock tomorrow validEpochMin = false then false
      else
        let tomorrowDate := dateKeyFromTime off tomorrow validEpochMin
        if tomorrowDate.length = 0 then false
        else !stateContainsDate state tomorrowDate

/-- Loop of `dayCount` of `main.cpp`. -/
def dayCountGo : List PricePoint → String → Nat → Nat
  | [], _, uniqueDays => uniqueDays
  | p :: rest, lastDay, uniqueDays =>
    if p.startsAt.length < 10 then dayCountGo rest lastDay uniqueDays
    else
      let day := takeChars 10 p.startsAt
      if day ≠ lastDay then dayCountGo rest day (uniqueDays + 1)
      else dayCountGo rest lastDay uniqueDays

/-- `dayCount` of `main.cpp`. -/
def dayCount (state : PriceState) : Nat :=
  if state.ok = false ∨ state.count = 0 then 0
  else dayCountGo state.points "" 0

/-- `wouldReduceCoverage` of `main.cpp`. -/
def wouldReduceCoverage (fetched current : PriceState) : Bool :=
  if fetched.ok = false ∨ current.ok = false ∨ current.count = 0 then false
  else if fetched.count < current.count then true
  else decide (dayCount fetched < dayCount current)

/-- `isSamePoint` of `main.cpp`. -/
def isSamePoint (lhs rhs : PricePoint) : Bool :=
  lhs.startsAt == rhs.startsAt && lhs.level == rhs.level &&
    decide (|lhs.price - rhs.price| < 0.0005)

/-- `hasNewPriceInfo` of `main.cpp` (index-wise comparison of two
equal-length point lists is a comparison of zipped pairs). -/
def hasNewPriceInfo (fetched current : PriceState) : Bool :=
  if fetched.ok = false ∨ fetched.count = 0 then false
  else if current.ok = false ∨ current.count = 0 then true
  else if fetched.count ≠ current.count then true
  else (fetched.points.zip current.points).any fun pr => !isSamePoint pr.1 pr.2

/-- `applyFetchedState` of `main.cpp` (its `priceCacheSave`, display and
`millis()` bookkeeping are I/O effects outside the returned state). -/
def applyFetchedState (gState fetched : PriceState) : PriceState :=
  if fetched.ok = true then fetched
  else if 0 < gState.count then { gState with error := fetched.error }
  else fetched

/-- `updateCurrentHourFromClock` of `main.cpp`; `cfgResolutionMinutes` is
the configured `gSecrets.nordpoolResolutionMinutes`. -/
def updateCurrentHourFromClock (off now : Int) (cfgResolutionMinutes : Nat)
    (gState : PriceState) : PriceState :=
  if gState.ok = false ∨ gState.count = 0 then gState
  else
    let idx := findCurrentPricePointIndex off now gState cfgResolutionMinutes
    if idx < 0 ∨ idx = gState.currentIndex then gState
    else
      let p := gState.points.getD idx.toNat {}
      { gState with
        currentIndex := idx, currentStartsAt := p.startsAt,
        currentLevel := p.level, currentPrice := p.price }

/-- `scheduleNextDailyFetch` of `time_utils.cpp` in the fixed-offset time
model. -/
def scheduleNextDailyFetch (off now : Int) (hour minute : Int) : Int :=
  if now < 1700000000 then 0
  else
    let next := localDayNumber off now * 86400 + hour * 3600 + minute * 60 - off
    if next ≤ now then next + 24 * 3600 else next

/-- The globals of `main.cpp` touched by `handleClockDrivenUpdates`. -/
structure OrchestratorState where
  gState : PriceState := {}
  gNextDailyFetch : Int := 0
  gLastMinuteTick : Int := 0
  gPendingCatchUpRecheck : Bool := false

/-- The daily-fetch-trigger branch of `handleClockDrivenUpdates`
(`main.cpp`), given the freshly fetched snapshot. -/
def dailyFetchDecision (off now : Int) (fetched : PriceState) (g : OrchestratorState) :
    OrchestratorState :=
  if fetched.ok = false then
    { g with gState := applyFetchedState g.gState fetched,
             gNextDailyFetch := now + kRetryDailyIfUnchangedSec }
  else if wouldReduceCoverage fetched g.gState = true then
    { g with gNextDailyFetch := now + kRetryDailyIfUnchangedSec }
  else if hasNewPriceInfo fetched g.gState = true then
    { g with gState := applyFetchedState g.gState fetched,
             gNextDailyFetch := scheduleNextDailyFetch off now kDailyFetchHour kDailyFetchMinute }
  else { g with gNextDailyFetch := now + kRetryDailyIfUnchangedSec }

/-- `handleClockDrivenUpdates` of `main.cpp`.  The network fetch performed
at the trigger is an I/O boundary: `fetched` is the snapshot it produces.
The `uint32_t` minute tick `now / 60` stays in integer form. -/
def handleClockDrivenUpdates (off now : Int) (cfgResolutionMinutes : Nat)
    (fetched : PriceState) (g0 : OrchestratorState) : OrchestratorState :=
  if isValidClock now kValidEpochMin = false then g0
  else
    let g1 :=
      if g0.gPendingCatchUpRecheck = true then
        let g := { g0 with gPendingCatchUpRecheck := false }
        if shouldCatchUpMissedDailyUpdate off now g0.gState kDailyFetchHour kDailyFetchMinute
            kValidEpochMin = true then
          { g with gNextDailyFetch := now }
        else g
      else g0
    let minuteTick := now.fdiv 60
    let g2 :=
      if minuteTick ≠ g1.gLastMinuteTick then
        { g1 with gLastMinuteTick := minuteTick,
                  gState := updateCurrentHourFromClock off now cfgResolutionMinutes g1.gState }
      else g1
    let g3 :=
      if g2.gNextDailyFetch = 0 then
        { g2 with
          gNextDailyFetch := scheduleNextDailyFetch off now kDailyFetchHour kDailyFetchMinute }
      else g2
    if g3.gNextDailyFetch ≠ 0 ∧ g3.gNextDailyFetch ≤ now then
      dailyFetchDecision off now fetched g3
    else g3

/-! ### Spec-side notions used by the claims -/

/-- The calendar-day prefixes of a list of slots (slots with a timestamp
shorter than 10 characters carry no day prefix). -/
def dayKeysOf (l : List PricePoint) : List String :=
  l.filterMap fun p =>
    if p.startsAt.length < 10 then none else some (takeChars 10 p.startsAt)

/-- The calendar-day prefixes of a snapshot's slot timestamps. -/
def dayKeyList (state : PriceState) : List String :=
  dayKeysOf state.points

/-- Modelled from the spec: the number of distinct covered calendar days of
a snapshot ("fewer distinct calendar-day prefixes among its slot
timestamps"). -/
def specDistinctDayCount (state : PriceState) : Nat :=
  (dayKeyList state).toFinset.card

/-- Transition counter on a list of day keys: the value `dayCountGo` adds
to its accumulator. -/
def runsFrom : List String → String → Nat
  | [], _ => 0
  | d :: rest, lastDay =>
    if d ≠ lastDay then 1 + runsFrom rest d else runsFrom rest lastDay

end NPD

namespace NPD

/-! ### Order facts about the byte-wise string comparison -/

theorem lexLe_cons_iff (x y : Char) (xs ys : List Char) :
    lexLe (x :: xs) (y :: ys) = true ↔ x < y ∨ (x = y ∧ lexLe xs ys = true) := by
  simp only [lexLe]
  split_ifs with h1 h2
  · simp [h1]
  · simp [h1, (h2.ne').symm]
    intro h
    exact absurd h h2.ne'
  · have hxy : x = y := le_antisymm (not_lt.mp h2) (not_lt.mp h1)
    simp [hxy, lt_irrefl]

theorem lexLe_refl (l : List Char) : lexLe l l = true := by
  induction l with
  | nil => rfl
  | cons a as ih => simp [lexLe_cons_iff, ih]

theorem lexLe_total : ∀ (a b : List Char), lexLe a b = true ∨ lexLe b a = true
  | [], _ => Or.inl rfl
  | _ :: _, [] => Or.inr rfl
  | x :: xs, y :: ys => by
    rcases lt_trichotomy x y with h | h | h
    · exact Or.inl ((lexLe_cons_iff ..).mpr (Or.inl h))
    · rcases lexLe_total xs ys with h2 | h2
      · exact Or.inl ((lexLe_cons_iff ..).mpr (Or.inr ⟨h, h2⟩))
      · exact Or.inr ((lexLe_cons_iff ..).mpr (Or.inr ⟨h.symm, h2⟩))
    · exact Or.inr ((lexLe_cons_iff ..).mpr (Or.inl h))

theorem lexLe_trans : ∀ (a b c : List Char),
    lexLe a b = true → lexLe b c = true → lexLe a c = true
  | [], _, _, _, _ => rfl
  | _ :: _, [], _, h, _ => by simp [lexLe] at h
  | _ :: _, _ :: _, [], _, h => by simp [lexLe] at h
  | x :: xs, y :: ys, z :: zs, h1, h2 => by
    rw [lexLe_cons_iff] at h1 h2 ⊢
    rcases h1 with h1 | ⟨rfl, h1⟩
    · rcases h2 with h2 | ⟨rfl, _⟩
      · exact Or.inl (h1.trans h2)
      · exact Or.inl h1
    · rcases h2 with h2 | ⟨rfl, h2⟩
      · exact Or.inl h2
      · exact Or.inr ⟨rfl, lexLe_trans _ _ _ h1 h2⟩

theorem lexLe_antisymm : ∀ (a b : List Char),
    lexLe a b = true → lexLe b a = true → a = b
  | [], [], _, _ => rfl
  | _ :: _, [], h, _ => by simp [lexLe] at h
  | [], _ :: _, _, h => by simp [lexLe] at h
  | x :: xs, y :: ys, h1, h2 => by
    rw [lexLe_cons_iff] at h1 h2
    rcases h1 with h1 | ⟨rfl, h1⟩
    · rcases h2 with h2 | ⟨rfl, _⟩
      · exact absurd h2 (asymm h1)
      · exact absurd h1 (lt_irrefl _)
    · rcases h2 with h2 | ⟨_, h2⟩
      · exact absurd h2 (lt_irrefl _)
      · exact congrArg (x :: ·) (lexLe_antisymm _ _ h1 h2)

theorem strLe_refl (s : String) : strLe s s = true := lexLe_refl _

theorem strLe_total (a b : String) : strLe a b = true ∨ strLe b a = true :=
  lexLe_total _ _

theorem strLe_trans {a b c : String} (h1 : strLe a b = true) (h2 : strLe b c = true) :
    strLe a c = true :=
  lexLe_trans _ _ _ h1 h2

theorem strLe_antisymm : ∀ {a b : String},
    strLe a b = true → strLe b a = true → a = b
  | ⟨_⟩, ⟨_⟩, h1, h2 => congrArg String.mk (lexLe_antisymm _ _ h1 h2)

theorem takeChars_of_length_le {s : String} {n : Nat} (h : s.length ≤ n) :
    takeChars n s = s := by
  cases s with
  | mk data => exact congrArg String.mk (List.take_of_length_le h)

theorem length_le_of_isIntervalKey {k : String} (h : isIntervalKey k = true) :
    k.length ≤ 19 := by
  simp only [isIntervalKey, Bool.or_eq_true, beq_iff_eq] at h
  rcases h with h | h <;> omega

/-! ### History ingestion (claim C2) -/

theorem updateHistoryGo_watermark_mono (res : Nat) :
    ∀ (ps : List PricePoint) (store : MovingAverageStore) (c : Bool),
      isIntervalKey store.lastSlotKey = true →
      isIntervalKey (updateHistoryGo res ps store store.lastSlotKey c).1.lastSlotKey = true ∧
        strLe store.lastSlotKey
          (updateHistoryGo res ps store store.lastSlotKey c).1.lastSlotKey = true
  | [], store, c, hval => ⟨hval, strLe_refl _⟩
  | p :: rest, store, c, hval => by
    simp only [updateHistoryGo]
    split_ifs with h1 h2
    · exact updateHistoryGo_watermark_mono res rest store c hval
    · exact updateHistoryGo_watermark_mono res rest store c hval
    · set k := intervalKeyFromIso p.startsAt res with hk
      have hkval : isIntervalKey k = true := by simpa using h1
      have htake : takeChars 19 k = k :=
        takeChars_of_length_le (length_le_of_isIntervalKey hkval)
      set store2 : MovingAverageStore :=
        { addMovingAverageSample store p.price with lastSlotKey := takeChars 19 k }
      have hsync : store2.lastSlotKey = k := htake
      have ih := updateHistoryGo_watermark_mono res rest store2 true (by rw [hsync]; exact hkval)
      rw [hsync] at ih
      refine ⟨ih.1, ?_⟩
      have hlast_le_k : strLe store.lastSlotKey k = true := by
        rcases strLe_total store.lastSlotKey k with h | h
        · exact h
        · exact absurd ⟨hval, h⟩ h2
      exact strLe_trans hlast_le_k ih.2

theorem updateHistoryGo_bounds (res : Nat) :
    ∀ (ps : List PricePoint) (store : MovingAverageStore) (c : Bool),
      ∀ p ∈ ps, isIntervalKey (intervalKeyFromIso p.startsAt res) = true →
        isIntervalKey (updateHistoryGo res ps store store.lastSlotKey c).1.lastSlotKey = true ∧
          strLe (intervalKeyFromIso p.startsAt res)
            (updateHistoryGo res ps store store.lastSlotKey c).1.lastSlotKey = true
  | [], _, _, p, hp, _ => absurd hp (List.not_mem_nil p)
  | q :: rest, store, c, p, hp, hpval => by
    simp only [updateHistoryGo]
    split_ifs with h1 h2
    · rcases List.mem_cons.mp hp with rfl | hp'
      · simp [h1] at hpval
      · exact updateHistoryGo_bounds res rest store c p hp' hpval
    · rcases List.mem_cons.mp hp with rfl | hp'
      · have hmono := updateHistoryGo_watermark_mono res rest store c h2.1
        exact ⟨hmono.1, strLe_trans h2.2 hmono.2⟩
      · exact updateHistoryGo_bounds res rest store c p hp' hpval
    · set k := intervalKeyFromIso q.startsAt res with hk
      have hkval : isIntervalKey k = true := by simpa using h1
      have htake : takeChars 19 k = k :=
        takeChars_of_length_le (length_le_of_isIntervalKey hkval)
      set store2 : MovingAverageStore :=
        { addMovingAverageSample store q.price with lastSlotKey := takeChars 19 k }
      have hsync : store2.lastSlotKey = k := htake
      rcases List.mem_cons.mp hp with rfl | hp'
      · have hmono := updateHistoryGo_watermark_mono res rest store2 true
          (by rw [hsync]; exact hkval)
        rw [hsync] at hmono
        exact ⟨hmono.1, hmono.2⟩
      · have ih := updateHistoryGo_bounds res rest store2 true p hp' hpval
        rw [hsync] at ih
        exact ih

theorem updateHistoryGo_noop (res : Nat) :
    ∀ (ps : List PricePoint) (store : MovingAverageStore) (last : String) (c : Bool),
      (∀ p ∈ ps, isIntervalKey (intervalKeyFromIso p.startsAt res) = true →
        isIntervalKey last = true ∧ strLe (intervalKeyFromIso p.startsAt res) last = true) →
      updateHistoryGo res ps store last c = (store, c)
  | [], _, _, _, _ => rfl
  | q :: rest, store, last, c, hbound => by
    simp only [updateHistoryGo]
    split_ifs with h1 h2
    · exact updateHistoryGo_noop res rest store last c fun p hp => hbound p (List.mem_cons_of_mem q hp)
    · exact updateHistoryGo_noop res rest store last c fun p hp => hbound p (List.mem_cons_of_mem q hp)
    · have hq : isIntervalKey (intervalKeyFromIso q.startsAt res) = true := by
        simpa using h1
      exact absurd (hbound q (List.mem_cons_self q rest) hq) h2

/-! ### Circular-buffer facts (claim C3) -/

theorem addSample_fields (s : MovingAverageStore) (v : ℚ)
    (hw : 0 < s.windowSamples) (hmax : s.windowSamples ≤ kMaxMovingAverageWindowSamples) :
    addMovingAverageSample s v =
      { s with
        values := fun i => if i = s.head then v else s.values i
        head := (s.head + 1) % s.windowSamples
        count := if s.count < s.windowSamples then s.count + 1 else s.count } := by
  simp only [addMovingAverageSample]
  rw [if_neg]
  push_neg
  exact ⟨Nat.pos_iff_ne_zero.mp hw, hmax⟩

theorem foldl_addSample_shape :
    ∀ (xs : List ℚ) (s : MovingAverageStore),
      0 < s.windowSamples → s.windowSamples ≤ kMaxMovingAverageWindowSamples →
      s.head < s.windowSamples → s.count ≤ s.windowSamples →
      (xs.foldl addMovingAverageSample s).windowSamples = s.windowSamples ∧
      (xs.foldl addMovingAverageSample s).head = (s.head + xs.length) % s.windowSamples ∧
      (xs.foldl addMovingAverageSample s).count = min (s.count + xs.length) s.windowSamples
  | [], s, _, _, hh, hc => by
    refine ⟨rfl, ?_, ?_⟩
    · simpa using (Nat.mod_eq_of_lt hh).symm
    · simp only [List.foldl_nil, List.length_nil]
      omega
  | v :: xs, s, hw, hmax, hh, hc => by
    rw [List.foldl_cons, addSample_fields s v hw hmax]
    set s1 : MovingAverageStore :=
      { s with
        values := fun i => if i = s.head then v else s.values i
        head := (s.head + 1) % s.windowSamples
        count := if s.count < s.windowSamples then s.count + 1 else s.count } with hs1
    have hws : s1.windowSamples = s.windowSamples := rfl
    have hhead : s1.head = (s.head + 1) % s.windowSamples := rfl
    have hcount : s1.count = if s.count < s.windowSamples then s.count + 1 else s.count := rfl
    have ih := foldl_addSample_shape xs s1 (by rw [hws]; exact hw) (by rw [hws]; exact hmax)
      (by rw [hws, hhead]; exact Nat.mod_lt _ hw)
      (by rw [hws, hcount]; split_ifs <;> omega)
    refine ⟨by rw [ih.1, hws], ?_, ?_⟩
    · rw [ih.2.1, hws, hhead, Nat.mod_add_mod, List.length_cons]
      congr 1
      omega
    · rw [ih.2.2, hws, hcount, List.length_cons]
      split_ifs <;> omega

theorem foldl_addSample_not_written :
    ∀ (xs : List ℚ) (s : MovingAverageStore),
      0 < s.windowSamples → s.windowSamples ≤ kMaxMovingAverageWindowSamples →
      s.head < s.windowSamples →
      ∀ i : Nat, (∀ j, j < xs.length → (s.head + j) % s.windowSamples ≠ i) →
      (xs.foldl addMovingAverageSample s).values i = s.values i
  | [], _, _, _, _, _, _ => rfl
  | v :: xs, s, hw, hmax, hh, i, hnw => by
    rw [List.foldl_cons, addSample_fields s v hw hmax]
    set s1 : MovingAverageStore :=
      { s with
        values := fun i => if i = s.head then v else s.values i
        head := (s.head + 1) % s.windowSamples
        count := if s.count < s.windowSamples then s.count + 1 else s.count } with hs1
    have hws : s1.windowSamples = s.windowSamples := rfl
    have hhead : s1.head = (s.head + 1) % s.windowSamples := rfl
    have hne : i ≠ s.head := by
      have h0 := hnw 0 (by simp)
      rw [Nat.add_zero, Nat.mod_eq_of_lt hh] at h0
      exact fun h => h0 h.symm
    have ih := foldl_addSample_not_written xs s1 (by rw [hws]; exact hw)
      (by rw [hws]; exact hmax) (by rw [hws, hhead]; exact Nat.mod_lt _ hw) i ?_
    · rw [ih]
      show (if i = s.head then v else s.values i) = s.values i
      rw [if_neg hne]
    · intro j hj
      rw [hws, hhead, Nat.mod_add_mod, Nat.add_assoc, Nat.add_comm 1 j]
      exact hnw (j + 1) (by simpa using Nat.succ_lt_succ hj)

theorem foldl_addSample_written :
    ∀ (xs : List ℚ) (s : MovingAverageStore),
      0 < s.windowSamples → s.windowSamples ≤ kMaxMovingAverageWindowSamples →
      s.head < s.windowSamples → xs.length ≤ s.windowSamples →
      ∀ j, j < xs.length →
      (xs.foldl addMovingAverageSample s).values ((s.head + j) % s.windowSamples)
        = xs.getD j 0
  | [], _, _, _, _, _, j, hj => absurd hj (by simp)
  | v :: xs, s, hw, hmax, hh, hlen, j, hj => by
    rw [List.foldl_cons, addSample_fields s v hw hmax]
    set s1 : MovingAverageStore :=
      { s with
        values := fun i => if i = s.head then v else s.values i
        head := (s.head + 1) % s.windowSamples
        count := if s.count < s.windowSamples then s.count + 1 else s.count } with hs1
    have hws : s1.windowSamples = s.windowSamples := rfl
    have hhead : s1.head = (s.head + 1) % s.windowSamples := rfl
    match j with
    | 0 =>
      rw [Nat.add_zero, Nat.mod_eq_of_lt hh]
      have hnw : ∀ j', j' < xs.length → (s1.head + j') % s1.windowSamples ≠ s.head := by
        intro j' hj' habs
        rw [hws, hhead, Nat.mod_add_mod] at habs
        have hmod : (s.head + (1 + j')) % s.windowSamples
            = (s.head + 0) % s.windowSamples := by
          rw [Nat.add_assoc] at habs
          rw [habs, Nat.add_zero, Nat.mod_eq_of_lt hh]
        have hdvd : s.windowSamples ∣ (1 + j') :=
          Nat.modEq_zero_iff_dvd.mp (Nat.ModEq.add_left_cancel rfl hmod)
        have := Nat.le_of_dvd (by omega) hdvd
        simp only [List.length_cons] at hlen
        omega
      have hpres := foldl_addSample_not_written xs s1 (by rw [hws]; exact hw)
        (by rw [hws]; exact hmax) (by rw [hws, hhead]; exact Nat.mod_lt _ hw) s.head hnw
      rw [hpres]
      show (if s.head = s.head then v else s.values s.head) = (v :: xs).getD 0 0
      rw [if_pos rfl]
      rfl
    | j' + 1 =>
      have harg : (s.head + (j' + 1)) % s.windowSamples
          = (s1.head + j') % s1.windowSamples := by
        rw [hws, hhead, Nat.mod_add_mod, Nat.add_assoc, Nat.add_comm 1 j']
      rw [harg]
      have ih := foldl_addSample_written xs s1 (by rw [hws]; exact hw)
        (by rw [hws]; exact hmax) (by rw [hws, hhead]; exact Nat.mod_lt _ hw)
        (by rw [hws]; simp only [List.length_cons] at hlen; exact Nat.le_of_succ_le hlen)
        j' (by simpa using Nat.lt_of_succ_lt_succ hj)
      rw [ih]
      simp

theorem sum_range_mod_shift (w h : Nat) (hw : 0 < w) (hh : h < w) (f : Nat → ℚ) :
    ∑ i ∈ Finset.range w, f i = ∑ j ∈ Finset.range w, f ((h + j) % w) := by
  have key1 : ∀ a, a < w → (h + (a + (w - h)) % w) % w = a := by
    intro a ha
    rw [Nat.add_mod_mod]
    have harg : h + (a + (w - h)) = a + w := by omega
    rw [harg, Nat.add_mod_right, Nat.mod_eq_of_lt ha]
  have key2 : ∀ a, a < w → ((h + a) % w + (w - h)) % w = a := by
    intro a ha
    rw [Nat.mod_add_mod]
    have harg : h + a + (w - h) = a + w := by omega
    rw [harg, Nat.add_mod_right, Nat.mod_eq_of_lt ha]
  exact Finset.sum_nbij' (fun a => (a + (w - h)) % w) (fun j => (h + j) % w)
    (fun a _ => Finset.mem_range.mpr (Nat.mod_lt _ hw))
    (fun a _ => Finset.mem_range.mpr (Nat.mod_lt _ hw))
    (fun a ha => key1 a (Finset.mem_range.mp ha))
    (fun a ha => key2 a (Finset.mem_range.mp ha))
    (fun a ha => (congrArg f (key1 a (Finset.mem_range.mp ha))).symm)

theorem list_sum_eq_sum_getD (l : List ℚ) :
    l.sum = ∑ j ∈ Finset.range l.length, l.getD j 0 := by
  induction l with
  | nil => simp
  | cons a l ih =>
    rw [List.sum_cons, List.length_cons, Finset.sum_range_succ']
    simp only [List.getD_cons_succ, List.getD_cons_zero]
    rw [← ih]
    ring

end NPD

/-- C2: history ingestion is idempotent.  Running `updateHistoryFromPoints`
on a slot list twice in a row leaves the store exactly as after the first
run — same sample count, same stored samples, same last-processed key,
hence the same moving average — and the second run reports no change
(appends no samples). -/
theorem c2_history_ingestion_idempotent (state : NPD.PriceState)
    (store : NPD.MovingAverageStore) :
    NPD.updateHistoryFromPoints state (NPD.updateHistoryFromPoints state store).1
      = ((NPD.updateHistoryFromPoints state store).1, false) ∧
    (NPD.updateHistoryFromPoints state (NPD.updateHistoryFromPoints state store).1).1.count
      = (NPD.updateHistoryFromPoints state store).1.count ∧
    (NPD.updateHistoryFromPoints state (NPD.updateHistoryFromPoints state store).1).1.values
      = (NPD.updateHistoryFromPoints state store).1.values ∧
    (NPD.updateHistoryFromPoints state (NPD.updateHistoryFromPoints state store).1).1.lastSlotKey
      = (NPD.updateHistoryFromPoints state store).1.lastSlotKey ∧
    NPD.movingAverageValue
        (NPD.updateHistoryFromPoints state (NPD.updateHistoryFromPoints state store).1).1
      = NPD.movingAverageValue (NPD.updateHistoryFromPoints state store).1 := by
  have hmain : NPD.updateHistoryFromPoints state (NPD.updateHistoryFromPoints state store).1
      = ((NPD.updateHistoryFromPoints state store).1, false) := by
    unfold NPD.updateHistoryFromPoints
    exact NPD.updateHistoryGo_noop state.resolutionMinutes state.points _ _ false
      fun p hp hval => NPD.updateHistoryGo_bounds state.resolutionMinutes state.points
        store false p hp hval
  refine ⟨hmain, ?_, ?_, ?_, ?_⟩ <;> rw [hmain]

/-- C3: starting from any store satisfying the circular-buffer invariants
(`0 < windowSamples ≤ kMaxMovingAverageWindowSamples`, `head <
windowSamples`, `count <= windowSamples`), any sequence of
`addMovingAverageSample` calls preserves `count <= windowSamples` and
`head < windowSamples`; once more than `windowSamples` values have been
inserted, the sample count equals `windowSamples` and `movingAverageValue`
is the arithmetic mean of exactly the most recent `windowSamples` inserted
values; and `movingAverageValue` is 0 on an empty store. -/
theorem c3_moving_average_window (s : NPD.MovingAverageStore) (xs : List ℚ)
    (hw : 0 < s.windowSamples)
    (hmax : s.windowSamples ≤ NPD.kMaxMovingAverageWindowSamples)
    (hh : s.head < s.windowSamples) (hc : s.count ≤ s.windowSamples) :
    ((xs.foldl NPD.addMovingAverageSample s).count
        ≤ (xs.foldl NPD.addMovingAverageSample s).windowSamples ∧
      (xs.foldl NPD.addMovingAverageSample s).head
        < (xs.foldl NPD.addMovingAverageSample s).windowSamples) ∧
    (s.windowSamples < xs.length →
      (xs.foldl NPD.addMovingAverageSample s).count = s.windowSamples ∧
      NPD.movingAverageValue (xs.foldl NPD.addMovingAverageSample s)
        = (xs.drop (xs.length - s.windowSamples)).sum / (s.windowSamples : ℚ)) ∧
    (s.count = 0 → NPD.movingAverageValue s = 0) := by
  have hshape := NPD.foldl_addSample_shape xs s hw hmax hh hc
  refine ⟨⟨?_, ?_⟩, fun hlen => ?_, fun h0 => ?_⟩
  · rw [hshape.1, hshape.2.2]
    omega
  · rw [hshape.1, hshape.2.1]
    exact Nat.mod_lt _ hw
  · have hfold : xs.foldl NPD.addMovingAverageSample s
        = (xs.drop (xs.length - s.windowSamples)).foldl NPD.addMovingAverageSample
            ((xs.take (xs.length - s.windowSamples)).foldl NPD.addMovingAverageSample s) := by
      rw [← List.foldl_append, List.take_append_drop]
    set ys := xs.take (xs.length - s.windowSamples) with hys
    set zs := xs.drop (xs.length - s.windowSamples) with hzs
    have hzslen : zs.length = s.windowSamples := by
      rw [hzs, List.length_drop]
      omega
    have shape1 := NPD.foldl_addSample_shape ys s hw hmax hh hc
    set s1 := ys.foldl NPD.addMovingAverageSample s with hs1
    have hw1 : 0 < s1.windowSamples := by rw [shape1.1]; exact hw
    have hmax1 : s1.windowSamples ≤ NPD.kMaxMovingAverageWindowSamples := by
      rw [shape1.1]; exact hmax
    have hh1 : s1.head < s1.windowSamples := by
      rw [shape1.1, shape1.2.1]
      exact Nat.mod_lt _ hw
    have hc1 : s1.count ≤ s1.windowSamples := by
      rw [shape1.1, shape1.2.2]
      omega
    have shape2 := NPD.foldl_addSample_shape zs s1 hw1 hmax1 hh1 hc1
    have hcount : (xs.foldl NPD.addMovingAverageSample s).count = s.windowSamples := by
      rw [hfold, shape2.2.2, hzslen, shape1.1]
      omega
    refine ⟨hcount, ?_⟩
    have hne : (xs.foldl NPD.addMovingAverageSample s).count ≠ 0 := by
      rw [hcount]
      omega
    rw [NPD.movingAverageValue, if_neg hne, hcount]
    have hh1w : s1.head < s.windowSamples := by rw [← shape1.1]; exact hh1
    have hsum : ∑ i ∈ Finset.range s.windowSamples,
        (xs.foldl NPD.addMovingAverageSample s).values i = zs.sum := by
      rw [NPD.sum_range_mod_shift s.windowSamples s1.head hw hh1w]
      have hterm : ∀ j ∈ Finset.range s.windowSamples,
          (xs.foldl NPD.addMovingAverageSample s).values ((s1.head + j) % s.windowSamples)
            = zs.getD j 0 := by
        intro j hj
        rw [hfold]
        have := NPD.foldl_addSample_written zs s1 hw1 hmax1 hh1
          (by rw [hzslen, shape1.1]) j (by rw [hzslen]; exact Finset.mem_range.mp hj)
        rw [shape1.1] at this
        exact this
      rw [Finset.sum_congr rfl hterm, NPD.list_sum_eq_sum_getD zs, hzslen]
    rw [hsum]
  · rw [NPD.movingAverageValue, if_pos h0]

/-- C3 witness: the theorem applied to the default (reset) store and a
concrete sample list. -/
theorem c3_moving_average_window_witness :
    ((([(1 : ℚ), 2].foldl NPD.addMovingAverageSample NPD.resetStore).count
        ≤ ([(1 : ℚ), 2].foldl NPD.addMovingAverageSample NPD.resetStore).windowSamples ∧
      ([(1 : ℚ), 2].foldl NPD.addMovingAverageSample NPD.resetStore).head
        < ([(1 : ℚ), 2].foldl NPD.addMovingAverageSample NPD.resetStore).windowSamples) ∧
     (NPD.resetStore.windowSamples < [(1 : ℚ), 2].length →
      ([(1 : ℚ), 2].foldl NPD.addMovingAverageSample NPD.resetStore).count
          = NPD.resetStore.windowSamples ∧
      NPD.movingAverageValue ([(1 : ℚ), 2].foldl NPD.addMovingAverageSample NPD.resetStore)
        = ([(1 : ℚ), 2].drop ([(1 : ℚ), 2].length - NPD.resetStore.windowSamples)).sum
            / (NPD.resetStore.windowSamples : ℚ)) ∧
     (NPD.resetStore.count = 0 → NPD.movingAverageValue NPD.resetStore = 0)) :=
  c3_moving_average_window NPD.resetStore [1, 2] (by decide) (by decide) (by decide) (by decide)

namespace NPD

/-! ### Normalizer facts (claim C5) -/

theorem addPointsGo_run (off : Int) :
    ∀ (entries : List RawEntry) (state : PriceState) (added : Bool),
      (addPointsGo off entries state added).1
        = { state with points := state.points ++
            (entries.filterMap (normalizedPoint off)).take (kMaxPoints - state.count) }
  | [], state, added => by simp [addPointsGo]
  | e :: rest, state, added => by
    simp only [addPointsGo]
    split_ifs with hcap
    · have hz : kMaxPoints - state.count = 0 := by omega
      simp [hz]
    · cases he : e.areaPrice with
      | none =>
        rw [addPointsGo_run off rest state added]
        simp [List.filterMap_cons, normalizedPoint, he]
      | some r =>
        rw [addPointsGo_run off rest]
        have hcount : ({ state with points := state.points ++
            [{ startsAt := utcIsoToLocalIsoSlot off e.deliveryStart
               price := applyCustomPriceFormula (r / 1000)
               level := "UNKNOWN" }] } : PriceState).count = state.count + 1 := by
          simp [PriceState.count]
        rw [hcount]
        have htake : kMaxPoints - state.count = (kMaxPoints - (state.count + 1)) + 1 := by
          simp only [PriceState.count] at hcap ⊢
          omega
        rw [htake]
        simp [List.filterMap_cons, normalizedPoint, he, List.take_succ_cons]

theorem addPointsGo_count_le (off : Int) (entries : List RawEntry) (state : PriceState)
    (added : Bool) (h : state.count ≤ kMaxPoints) :
    (addPointsGo off entries state added).1.count ≤ kMaxPoints := by
  rw [addPointsGo_run]
  show (state.points ++ _).length ≤ kMaxPoints
  rw [List.length_append]
  have hle := List.length_take_le (kMaxPoints - state.count)
    (entries.filterMap (normalizedPoint off))
  simp only [PriceState.count, kMaxPoints] at h hle ⊢
  omega

end NPD

/-- C5: every slot the normalizer appends to the state carries the price
`((1.25 * (r / 1000) * 100) + 84.225) / 100` obtained from its provider
entry's raw per-MWh price `r` (per-kWh conversion followed by the fixed
minor-unit markup formula), and its tier is initialized to UNKNOWN. -/
theorem c5_price_formula_unknown_tier (off : Int) (entries : List NPD.RawEntry)
    (state : NPD.PriceState) (q : NPD.PricePoint)
    (hq : q ∈ ((NPD.addPoints off entries state).1.points.drop state.count)) :
    (∃ r, (∃ e ∈ entries, e.areaPrice = some r) ∧
        q.price = (1.25 * (r / 1000) * 100 + 84.225) / 100) ∧
      q.level = "UNKNOWN" := by
  rw [NPD.addPoints, NPD.addPointsGo_run] at hq
  have hq1 : q ∈ (entries.filterMap (NPD.normalizedPoint off)).take
      (NPD.kMaxPoints - state.count) := by
    simpa [NPD.PriceState.count, List.drop_left] using hq
  have hq2 := List.mem_of_mem_take hq1
  rcases List.mem_filterMap.mp hq2 with ⟨e, he, hne⟩
  rcases Option.map_eq_some'.mp hne with ⟨r, hr, hqe⟩
  refine ⟨⟨r, ⟨e, he, hr⟩, ?_⟩, ?_⟩
  · rw [← hqe]
    show NPD.applyCustomPriceFormula (r / 1000) = _
    rw [NPD.applyCustomPriceFormula]
    ring
  · rw [← hqe]

/-- C5 witness: the theorem applied to one concrete provider entry. -/
theorem c5_price_formula_unknown_tier_witness :
    (∃ r, (∃ e ∈ [NPD.RawEntry.mk "2025-01-01T00:00:00" (some 1000)],
          e.areaPrice = some r) ∧
        (((NPD.addPoints 0 [NPD.RawEntry.mk "2025-01-01T00:00:00" (some 1000)]
              {}).1.points.drop (({} : NPD.PriceState).count)).getD 0 {}).price
          = (1.25 * (r / 1000) * 100 + 84.225) / 100) ∧
      (((NPD.addPoints 0 [NPD.RawEntry.mk "2025-01-01T00:00:00" (some 1000)]
            {}).1.points.drop (({} : NPD.PriceState).count)).getD 0 {}).level = "UNKNOWN" :=
  c5_price_formula_unknown_tier 0 _ {} _
    (by simp [NPD.addPoints, NPD.addPointsGo, NPD.kMaxPoints, NPD.PriceState.count])

namespace NPD

/-! ### Shape of the interval key on arbitrary input -/

theorem digitVal_le_nine (c : Char) : ∀ v ∈ digitVal c, v ≤ 9 := by
  intro v hv
  rw [digitVal] at hv
  split_ifs at hv with h
  · rw [Option.mem_def, Option.some.injEq] at hv
    subst hv
    have h9 : c.toNat ≤ 57 := by
      have := h.2
      simp only [Char.le_def] at this
      exact this
    have h48 : '0'.toNat = 48 := rfl
    rw [h48]
    omega
  · simp at hv

theorem parse2_le_99 (cs : List Char) : ∀ v ∈ parse2 cs, v ≤ 99 := by
  intro v hv
  match cs with
  | [] => simp [parse2] at hv
  | [c0] => simp [parse2] at hv
  | c0 :: c1 :: t =>
    rcases hd0 : digitVal c0 with _ | a <;> rcases hd1 : digitVal c1 with _ | b <;>
      simp [parse2, hd0, hd1] at hv
    have ha : a ≤ 9 := digitVal_le_nine c0 a (by rw [hd0]; rfl)
    have hb : b ≤ 9 := digitVal_le_nine c1 b (by rw [hd1]; rfl)
    omega

theorem pad2_length_of_le (m : Nat) (hm : m ≤ 99) : (pad2 m).length = 2 := by
  have h : ∀ n < 100, (pad2 n).length = 2 := by decide
  exact h m (by omega)

end NPD

/-- C6 counterexample: a malformed (but not too-short) timestamp string
yields a non-empty interval key — the first 13 characters — not the empty
string the claim requires. -/
theorem c6_counterexample :
    NPD.intervalKeyFromIso "not-a-timestamp-!" 60 = "not-a-timesta" ∧
    NPD.intervalKeyFromIso "not-a-timestamp-!" 60 ≠ "" := by
  constructor <;> decide

/-- C6 (amended): `intervalKeyFromIso` yields the empty interval key
exactly when the timestamp string is shorter than 13 characters; it
performs no format validation, so any string of length at least 13,
however malformed, yields a non-empty key — its 13-character prefix at
normalized-hourly resolution or when the string is shorter than 16
characters, and otherwise the 16-character key formed from the
13-character prefix and the slot minute — and the empty key never
matches: `findPricePointIndexForInterval` returns -1 for the empty key
against every state. -/
theorem c6_short_timestamp_empty_key (s : String) (r : Nat) (state : NPD.PriceState) :
    (NPD.intervalKeyFromIso s r = "" ↔ s.length < 13) ∧
    (13 ≤ s.length → 60 ≤ NPD.normalizeResolutionMinutes r ∨ s.length < 16 →
      NPD.intervalKeyFromIso s r = NPD.takeChars 13 s ∧
      (NPD.intervalKeyFromIso s r).length = 13) ∧
    (13 ≤ s.length → NPD.normalizeResolutionMinutes r < 60 → 16 ≤ s.length →
      NPD.intervalKeyFromIso s r
        = NPD.takeChars 13 s ++ ":"
            ++ NPD.pad2 ((NPD.parse2 (s.data.drop 14)).getD 0 -
                (NPD.parse2 (s.data.drop 14)).getD 0 % NPD.normalizeResolutionMinutes r) ∧
      (NPD.intervalKeyFromIso s r).length = 16) ∧
    NPD.findPricePointIndexForInterval state "" r = -1 := by
  have hdl : s.data.length = s.length := rfl
  have hlen13 : 13 ≤ s.length → (NPD.takeChars 13 s).length = 13 := by
    intro h
    show (s.data.take 13).length = 13
    rw [List.length_take]
    omega
  have hb1 : 13 ≤ s.length → 60 ≤ NPD.normalizeResolutionMinutes r ∨ s.length < 16 →
      NPD.intervalKeyFromIso s r = NPD.takeChars 13 s := by
    intro h1 h2
    simp only [NPD.intervalKeyFromIso]
    rw [if_neg (by omega), if_pos h2]
  have hmin : (NPD.parse2 (s.data.drop 14)).getD 0 ≤ 99 := by
    rcases hp : NPD.parse2 (s.data.drop 14) with _ | v
    · simp
    · simpa using NPD.parse2_le_99 _ v (by rw [hp]; rfl)
  have hb2 : 13 ≤ s.length → NPD.normalizeResolutionMinutes r < 60 → 16 ≤ s.length →
      NPD.intervalKeyFromIso s r
        = NPD.takeChars 13 s ++ ":"
            ++ NPD.pad2 ((NPD.parse2 (s.data.drop 14)).getD 0 -
                (NPD.parse2 (s.data.drop 14)).getD 0 % NPD.normalizeResolutionMinutes r) := by
    intro h1 h2 h3
    simp only [NPD.intervalKeyFromIso]
    rw [if_neg (by omega), if_neg (by push_neg; exact ⟨by omega, by omega⟩)]
  have hl1 : 13 ≤ s.length → (60 ≤ NPD.normalizeResolutionMinutes r ∨ s.length < 16) →
      (NPD.intervalKeyFromIso s r).length = 13 := by
    intro h1 h2
    rw [hb1 h1 h2]
    exact hlen13 h1
  have hl2 : 13 ≤ s.length → NPD.normalizeResolutionMinutes r < 60 → 16 ≤ s.length →
      (NPD.intervalKeyFromIso s r).length = 16 := by
    intro h1 h2 h3
    rw [hb2 h1 h2 h3, String.length_append, String.length_append, hlen13 h1,
      NPD.pad2_length_of_le _ (le_trans (Nat.sub_le _ _) hmin)]
    rfl
  refine ⟨⟨?_, ?_⟩, fun h1 h2 => ⟨hb1 h1 h2, hl1 h1 h2⟩,
    fun h1 h2 h3 => ⟨hb2 h1 h2 h3, hl2 h1 h2 h3⟩, rfl⟩
  · intro he
    by_contra hge
    push_neg at hge
    by_cases hc : 60 ≤ NPD.normalizeResolutionMinutes r ∨ s.length < 16
    · have h13 := hl1 hge hc
      rw [he] at h13
      exact absurd h13 (by decide)
    · push_neg at hc
      have h16 := hl2 hge hc.1 (by omega)
      rw [he] at h16
      exact absurd h16 (by decide)
  · intro hs
    rw [NPD.intervalKeyFromIso, if_pos hs]

/-- C6 witness: the amended theorem at concrete strings — a short string
yields the empty key, a malformed 17-character string yields its
13-character prefix, and the empty key matches nothing. -/
theorem c6_short_timestamp_empty_key_witness :
    NPD.intervalKeyFromIso "short" 60 = "" ∧
    NPD.intervalKeyFromIso "not-a-timestamp-!" 60 = NPD.takeChars 13 "not-a-timestamp-!" ∧
    NPD.findPricePointIndexForInterval {} "" 60 = -1 :=
  ⟨(c6_short_timestamp_empty_key "short" 60 {}).1.mpr (by decide),
   ((c6_short_timestamp_empty_key "not-a-timestamp-!" 60 {}).2.1 (by decide)
      (Or.inl (by decide))).1,
   (c6_short_timestamp_empty_key "short" 60 {}).2.2.2⟩

namespace NPD

/-! ### Current-slot lookup facts -/

theorem findIdxGo_bound (res : Nat) (key : String) :
    ∀ (l : List PricePoint) (i : Nat),
      findIdxGo res key l i = -1 ∨
        ((i : Int) ≤ findIdxGo res key l i ∧
          findIdxGo res key l i < (i : Int) + l.length)
  | [], _ => Or.inl rfl
  | p :: rest, i => by
    simp only [findIdxGo]
    split_ifs with h
    · refine Or.inr ⟨le_refl _, ?_⟩
      simp only [List.length_cons]
      push_cast
      omega
    · rcases findIdxGo_bound res key rest (i + 1) with h1 | h1
      · exact Or.inl h1
      · refine Or.inr ⟨?_, ?_⟩
        · exact le_trans (by push_cast; omega) h1.1
        · have := h1.2
          simp only [List.length_cons]
          push_cast at this ⊢
          omega

theorem findIdxGo_eq_neg_one (res : Nat) (key : String) :
    ∀ (l : List PricePoint) (i : Nat),
      (∀ p ∈ l, intervalKeyFromIso p.startsAt res ≠ key) →
      findIdxGo res key l i = -1
  | [], _, _ => rfl
  | p :: rest, i, h => by
    simp only [findIdxGo]
    rw [if_neg (h p (List.mem_cons_self p rest))]
    exact findIdxGo_eq_neg_one res key rest (i + 1) fun q hq => h q (List.mem_cons_of_mem p hq)

theorem findPricePointIndexForInterval_bound (state : PriceState) (key : String)
    (res : Nat) :
    findPricePointIndexForInterval state key res = -1 ∨
      (0 ≤ findPricePointIndexForInterval state key res ∧
        findPricePointIndexForInterval state key res < (state.count : Int)) := by
  rw [findPricePointIndexForInterval]
  split_ifs with h
  · exact Or.inl rfl
  · simpa [PriceState.count] using findIdxGo_bound res key state.points 0

theorem findPricePointIndexForInterval_of_no_match (state : PriceState) (key : String)
    (res : Nat) (h : ∀ p ∈ state.points, intervalKeyFromIso p.startsAt res ≠ key) :
    findPricePointIndexForInterval state key res = -1 := by
  rw [findPricePointIndexForInterval]
  split_ifs with hk
  · rfl
  · exact findIdxGo_eq_neg_one res key state.points 0 h

theorem findCurrentPricePointIndex_bound (off now : Int) (state : PriceState)
    (res : Nat) :
    findCurrentPricePointIndex off now state res = -1 ∨
      (0 ≤ findCurrentPricePointIndex off now state res ∧
        findCurrentPricePointIndex off now state res < (state.count : Int)) := by
  simp only [findCurrentPricePointIndex]
  split_ifs with h
  · exact Or.inl rfl
  · exact findPricePointIndexForInterval_bound state _ res

/-! ### Moving-average application facts (claims C9, C10) -/

theorem applyLevels_fields (state : PriceState) (avg : ℚ) :
    (applyLevelsFromMovingAverage state avg).ok = state.ok ∧
    (applyLevelsFromMovingAverage state avg).hasRunningAverage = state.hasRunningAverage ∧
    (applyLevelsFromMovingAverage state avg).runningAverage = state.runningAverage ∧
    (applyLevelsFromMovingAverage state avg).resolutionMinutes = state.resolutionMinutes ∧
    (applyLevelsFromMovingAverage state avg).count = state.count ∧
    (applyLevelsFromMovingAverage state avg).points
      = state.points.map fun p => { p with level := classifyLevelFromAverage p.price avg } :=
  ⟨rfl, rfl, rfl, rfl, by simp [applyLevelsFromMovingAverage, PriceState.count], rfl⟩

theorem assignCurrentFromClock_spec (off now : Int) (s : PriceState) :
    (assignCurrentFromClock off now s).ok = s.ok ∧
    (assignCurrentFromClock off now s).hasRunningAverage = s.hasRunningAverage ∧
    (assignCurrentFromClock off now s).runningAverage = s.runningAverage ∧
    (assignCurrentFromClock off now s).points = s.points ∧
    (assignCurrentFromClock off now s).currentIndex
      = findCurrentPricePointIndex off now s s.resolutionMinutes ∧
    (0 ≤ (assignCurrentFromClock off now s).currentIndex →
      (assignCurrentFromClock off now s).currentStartsAt
        = (s.points.getD (assignCurrentFromClock off now s).currentIndex.toNat {}).startsAt ∧
      (assignCurrentFromClock off now s).currentPrice
        = (s.points.getD (assignCurrentFromClock off now s).currentIndex.toNat {}).price) := by
  simp only [assignCurrentFromClock]
  split_ifs with h
  · refine ⟨rfl, rfl, rfl, rfl, rfl, fun hge => absurd ?_ (not_lt.mpr hge)⟩
    exact h
  · exact ⟨rfl, rfl, rfl, rfl, rfl, fun _ => ⟨rfl, rfl⟩⟩

theorem assignCurrentLevel_fields (s : PriceState) :
    (assignCurrentLevel s).ok = s.ok ∧
    (assignCurrentLevel s).hasRunningAverage = s.hasRunningAverage ∧
    (assignCurrentLevel s).runningAverage = s.runningAverage ∧
    (assignCurrentLevel s).points = s.points ∧
    (assignCurrentLevel s).currentIndex = s.currentIndex ∧
    (assignCurrentLevel s).currentStartsAt = s.currentStartsAt ∧
    (assignCurrentLevel s).currentPrice = s.currentPrice := by
  simp only [assignCurrentLevel]
  split_ifs <;> exact ⟨rfl, rfl, rfl, rfl, rfl, rfl, rfl⟩

theorem applyMovingAverageCore_spec (off now : Int) (avg : ℚ) (state : PriceState)
    (hpos : 0 < state.count) :
    (applyMovingAverageCore off now avg state).ok = state.ok ∧
    (applyMovingAverageCore off now avg state).hasRunningAverage = true ∧
    (applyMovingAverageCore off now avg state).runningAverage = avg ∧
    (applyMovingAverageCore off now avg state).points
      = state.points.map
          (fun p => { p with level := classifyLevelFromAverage p.price avg }) ∧
    (applyMovingAverageCore off now avg state).count = state.count ∧
    0 ≤ (applyMovingAverageCore off now avg state).currentIndex ∧
    (applyMovingAverageCore off now avg state).currentIndex
      < ((applyMovingAverageCore off now avg state).count : Int) ∧
    (applyMovingAverageCore off now avg state).currentStartsAt
      = ((applyMovingAverageCore off now avg state).points.getD
          (applyMovingAverageCore off now avg state).currentIndex.toNat {}).startsAt ∧
    (applyMovingAverageCore off now avg state).currentPrice
      = ((applyMovingAverageCore off now avg state).points.getD
          (applyMovingAverageCore off now avg state).currentIndex.toNat {}).price := by
  rw [applyMovingAverageCore]
  set state1 : PriceState := { state with hasRunningAverage := true, runningAverage := avg }
    with hs1
  set state2 := applyLevelsFromMovingAverage state1 avg with hs2
  set state3 := assignCurrentFromClock off now state2 with hs3
  have a2 := applyLevels_fields state1 avg
  have a3 := assignCurrentFromClock_spec off now state2
  rw [← hs2] at a2
  rw [← hs3] at a3
  have hpts2 : state2.points
      = state.points.map
          (fun p => { p with level := classifyLevelFromAverage p.price avg }) := a2.2.2.2.2.2
  have hcount2 : state2.count = state.count := by
    rw [a2.2.2.2.2.1]
    rfl
  have hcount3 : state3.count = state.count := by
    show state3.points.length = _
    rw [a3.2.2.2.1]
    exact hcount2
  have hbound := findCurrentPricePointIndex_bound off now state2 state2.resolutionMinutes
  split_ifs with hneg
  · -- no current slot matched: fall back to index 0
    set state4 : PriceState :=
      { state3 with
        currentIndex := 0
        currentStartsAt := (state3.points.getD 0 {}).startsAt
        currentPrice := (state3.points.getD 0 {}).price } with hs4
    have a4 := assignCurrentLevel_fields state4
    have hidx : (assignCurrentLevel state4).currentIndex = 0 := a4.2.2.2.2.1
    refine ⟨?_, ?_, ?_, ?_, ?_, ?_, ?_, ?_, ?_⟩
    · rw [a4.1]
      show state3.ok = state.ok
      rw [a3.1]
      exact a2.1
    · rw [a4.2.1]
      show state3.hasRunningAverage = true
      rw [a3.2.1]
      exact a2.2.1
    · rw [a4.2.2.1]
      show state3.runningAverage = avg
      rw [a3.2.2.1]
      exact a2.2.2.1
    · rw [a4.2.2.2.1]
      show state3.points = _
      rw [a3.2.2.2.1]
      exact hpts2
    · rw [show (assignCurrentLevel state4).count = state4.points.length from
        congrArg List.length a4.2.2.2.1]
      show state3.points.length = state.count
      exact hcount3
    · rw [hidx]
    · rw [hidx, show (assignCurrentLevel state4).count = state4.points.length from
        congrArg List.length a4.2.2.2.1]
      show (0 : Int) < (state3.points.length : Int)
      have : state3.points.length = state.count := hcount3
      omega
    · rw [a4.2.2.2.2.2.1, hidx, a4.2.2.2.1]
      show (state3.points.getD 0 {}).startsAt = _
      rfl
    · rw [a4.2.2.2.2.2.2, hidx, a4.2.2.2.1]
      show (state3.points.getD 0 {}).price = _
      rfl
  · -- the clock lookup produced a valid index
    have a4 := assignCurrentLevel_fields state3
    have hge : 0 ≤ state3.currentIndex := by omega
    have hidxlt : state3.currentIndex < (state.count : Int) := by
      rcases hbound with hb | hb
      · rw [a3.2.2.2.2.1] at hneg
        rw [hb] at hneg
        omega
      · rw [a3.2.2.2.2.1]
        rw [hcount2] at hb
        exact hb.2
    have hfields := a3.2.2.2.2.2 hge
    refine ⟨?_, ?_, ?_, ?_, ?_, ?_, ?_, ?_, ?_⟩
    · rw [a4.1, a3.1]
      exact a2.1
    · rw [a4.2.1, a3.2.1]
      exact a2.2.1
    · rw [a4.2.2.1, a3.2.2.1]
      exact a2.2.2.1
    · rw [a4.2.2.2.1, a3.2.2.2.1]
      exact hpts2
    · rw [show (assignCurrentLevel state3).count = state3.points.length from
        congrArg List.length a4.2.2.2.1]
      exact hcount3
    · rw [a4.2.2.2.2.1]
      exact hge
    · rw [a4.2.2.2.2.1, show (assignCurrentLevel state3).count = state3.points.length from
        congrArg List.length a4.2.2.2.1]
      have hlen : state3.points.length = state.count := hcount3
      rw [hlen]
      exact hidxlt
    · rw [a4.2.2.2.2.2.1, a4.2.2.2.2.1, a4.2.2.2.1, hfields.1, a3.2.2.2.1]
    · rw [a4.2.2.2.2.2.2, a4.2.2.2.2.1, a4.2.2.2.1, hfields.2, a3.2.2.2.1]

theorem effectiveMovingAverage_default (store : MovingAverageStore)
    (h : store.count = 0 ∨ movingAverageValue store ≤ 0.0001) :
    effectiveMovingAverage store = kDefaultMovingAverageKrPerKwh := by
  rcases h with h | h
  · simp only [effectiveMovingAverage, if_pos h]
    split_ifs <;> rfl
  · simp only [effectiveMovingAverage]
    split_ifs <;> rfl

theorem classify_ne_unknown (p : ℚ) :
    classifyLevelFromAverage p kDefaultMovingAverageKrPerKwh ≠ "UNKNOWN" := by
  simp only [classifyLevelFromAverage]
  rw [if_neg (by norm_num [kDefaultMovingAverageKrPerKwh])]
  split_ifs <;> decide

end NPD

/-- C9: when the rolling-average store holds no samples after ingestion,
or its computed average is at most 0.0001, `applyMovingAverageToState`
substitutes the 1.0 kr/kWh default: it sets `hasRunningAverage = true`
and `runningAverage = 1`, classifies every slot against the default
average, and consequently leaves no slot of a non-empty fetch with tier
UNKNOWN. -/
theorem c9_default_average (off now : Int) (loaded : Option NPD.MovingAverageStore)
    (state : NPD.PriceState) (hpos : 0 < state.count)
    (hcond : (NPD.ingestedStore loaded (NPD.normResState state)).count = 0 ∨
      NPD.movingAverageValue (NPD.ingestedStore loaded (NPD.normResState state)) ≤ 0.0001) :
    (NPD.applyMovingAverageToState off now loaded state).1.hasRunningAverage = true ∧
    (NPD.applyMovingAverageToState off now loaded state).1.runningAverage = 1 ∧
    (NPD.applyMovingAverageToState off now loaded state).1.points.map NPD.PricePoint.level
      = state.points.map (fun p => NPD.classifyLevelFromAverage p.price 1) ∧
    ∀ q ∈ (NPD.applyMovingAverageToState off now loaded state).1.points,
      q.level ≠ "UNKNOWN" := by
  have hform : NPD.applyMovingAverageToState off now loaded state
      = (NPD.applyMovingAverageCore off now
          (NPD.effectiveMovingAverage (NPD.ingestedStore loaded (NPD.normResState state)))
          (NPD.normResState state),
        (NPD.ingestedStore loaded (NPD.normResState state)).count) := by
    rw [NPD.applyMovingAverageToState,
      if_neg (Nat.pos_iff_ne_zero.mp hpos : ¬ state.count = 0)]
  rw [hform, NPD.effectiveMovingAverage_default _ hcond]
  have hposn : 0 < (NPD.normResState state).count := hpos
  have hspec := NPD.applyMovingAverageCore_spec off now
    NPD.kDefaultMovingAverageKrPerKwh (NPD.normResState state) hposn
  refine ⟨hspec.2.1, ?_, ?_, ?_⟩
  · show (NPD.applyMovingAverageCore off now NPD.kDefaultMovingAverageKrPerKwh
        (NPD.normResState state)).runningAverage = 1
    rw [hspec.2.2.1]
    rfl
  · show ((NPD.applyMovingAverageCore off now NPD.kDefaultMovingAverageKrPerKwh
        (NPD.normResState state)).points.map NPD.PricePoint.level) = _
    rw [hspec.2.2.2.1]
    show ((NPD.normResState state).points.map _).map _ = _
    rw [List.map_map]
    rfl
  · intro q hq
    have hq1 : q ∈ (NPD.applyMovingAverageCore off now NPD.kDefaultMovingAverageKrPerKwh
        (NPD.normResState state)).points := hq
    rw [hspec.2.2.2.1] at hq1
    rcases List.mem_map.mp hq1 with ⟨p, _, rfl⟩
    exact NPD.classify_ne_unknown p.price

/-- C9 witness: a one-slot state whose timestamp yields no interval key,
so the store stays empty and the default average applies. -/
theorem c9_default_average_witness :
    (NPD.applyMovingAverageToState 0 0 none
        { ({} : NPD.PriceState) with
          points := [NPD.PricePoint.mk "x" "UNKNOWN" 0] }).1.hasRunningAverage = true ∧
    (NPD.applyMovingAverageToState 0 0 none
        { ({} : NPD.PriceState) with
          points := [NPD.PricePoint.mk "x" "UNKNOWN" 0] }).1.runningAverage = 1 ∧
    (NPD.applyMovingAverageToState 0 0 none
        { ({} : NPD.PriceState) with
          points := [NPD.PricePoint.mk "x" "UNKNOWN" 0] }).1.points.map NPD.PricePoint.level
      = ({ ({} : NPD.PriceState) with
          points := [NPD.PricePoint.mk "x" "UNKNOWN" 0] } : NPD.PriceState).points.map
          (fun p => NPD.classifyLevelFromAverage p.price 1) ∧
    ∀ q ∈ (NPD.applyMovingAverageToState 0 0 none
        { ({} : NPD.PriceState) with
          points := [NPD.PricePoint.mk "x" "UNKNOWN" 0] }).1.points,
      q.level ≠ "UNKNOWN" :=
  c9_default_average 0 0 none _ (by decide) (Or.inl (by decide))

namespace NPD

/-! ### Fetch pipeline facts (claim C10) -/

theorem fetchDate_ok (off : Int) (r : FetchDateResult) (s : PriceState) :
    (fetchDate off r s).1.ok = s.ok := by
  cases r with
  | noContent => rfl
  | httpError status => rfl
  | parseFailure emptyBody => rfl
  | unauthorized => rfl
  | payload cur entries =>
    cases cur with
    | none =>
      show (addPoints off entries s).1.ok = s.ok
      rw [addPoints, addPointsGo_run]
    | some c =>
      show (addPoints off entries { s with currency := c }).1.ok = s.ok
      rw [addPoints, addPointsGo_run]

theorem fetchDate_count_le (off : Int) (r : FetchDateResult) (s : PriceState)
    (h : s.count ≤ kMaxPoints) : (fetchDate off r s).1.count ≤ kMaxPoints := by
  cases r with
  | noContent => exact h
  | httpError status => exact h
  | parseFailure emptyBody => exact h
  | unauthorized => exact h
  | payload cur entries =>
    cases cur with
    | none => exact addPointsGo_count_le off entries s false h
    | some c => exact addPointsGo_count_le off entries { s with currency := c } false h

theorem fetchNordPool_cases (off now : Int) (wifiConnected : Bool)
    (loaded : Option MovingAverageStore) (today tomorrow : FetchDateResult)
    (resolutionMinutes : Nat) :
    (fetchNordPoolPriceInfo off now wifiConnected loaded today tomorrow
        resolutionMinutes).ok = false ∨
      ∃ pre : PriceState, 0 < pre.count ∧ pre.count ≤ kMaxPoints ∧
        fetchNordPoolPriceInfo off now wifiConnected loaded today tomorrow resolutionMinutes
          = { (applyMovingAverageToState off now loaded pre).1 with ok := true } := by
  simp only [fetchNordPoolPriceInfo]
  split_ifs with h1 h2 h3 h4 h5 h6 h7
  · exact Or.inl rfl
  · exact Or.inl rfl
  · left
    rw [fetchDate_ok]
    rfl
  · left
    rw [fetchDate_ok, fetchDate_ok]
    rfl
  · left
    show (fetchDate off tomorrow
        (fetchDate off today (initFetchState resolutionMinutes)).1).1.ok = false
    rw [fetchDate_ok, fetchDate_ok]
    rfl
  · right
    refine ⟨_, ?_, ?_, rfl⟩
    · omega
    · show ((fetchDate off tomorrow
          (fetchDate off today (initFetchState resolutionMinutes)).1).1).count ≤ kMaxPoints
      exact fetchDate_count_le off tomorrow _
        (fetchDate_count_le off today _ (Nat.zero_le _))
  · left
    show (fetchDate off tomorrow
        (fetchDate off today (initFetchState resolutionMinutes)).1).1.ok = false
    rw [fetchDate_ok, fetchDate_ok]
    rfl
  · right
    refine ⟨_, ?_, ?_, rfl⟩
    · omega
    · exact fetchDate_count_le off tomorrow _
        (fetchDate_count_le off today _ (Nat.zero_le _))

end NPD

/-- C10: whenever the fetch pipeline reports success (`ok = true`), the
snapshot holds between 1 and 60 slots, its current index lies inside the
slot list, and the denormalized current timestamp and price equal those of
the slot at the current index (the index having fallen back to 0 when no
slot matched the current wall-clock slot key). -/
theorem c10_fetch_postcondition (off now : Int) (wifiConnected : Bool)
    (loaded : Option NPD.MovingAverageStore) (today tomorrow : NPD.FetchDateResult)
    (resolutionMinutes : Nat)
    (hok : (NPD.fetchNordPoolPriceInfo off now wifiConnected loaded today tomorrow
        resolutionMinutes).ok = true) :
    (1 ≤ (NPD.fetchNordPoolPriceInfo off now wifiConnected loaded today tomorrow
        resolutionMinutes).count ∧
      (NPD.fetchNordPoolPriceInfo off now wifiConnected loaded today tomorrow
        resolutionMinutes).count ≤ 60) ∧
    (0 ≤ (NPD.fetchNordPoolPriceInfo off now wifiConnected loaded today tomorrow
        resolutionMinutes).currentIndex ∧
      (NPD.fetchNordPoolPriceInfo off now wifiConnected loaded today tomorrow
          resolutionMinutes).currentIndex
        < ((NPD.fetchNordPoolPriceInfo off now wifiConnected loaded today tomorrow
            resolutionMinutes).count : Int)) ∧
    (NPD.fetchNordPoolPriceInfo off now wifiConnected loaded today tomorrow
        resolutionMinutes).currentStartsAt
      = ((NPD.fetchNordPoolPriceInfo off now wifiConnected loaded today tomorrow
            resolutionMinutes).points.getD
          (NPD.fetchNordPoolPriceInfo off now wifiConnected loaded today tomorrow
            resolutionMinutes).currentIndex.toNat {}).startsAt ∧
    (NPD.fetchNordPoolPriceInfo off now wifiConnected loaded today tomorrow
        resolutionMinutes).currentPrice
      = ((NPD.fetchNordPoolPriceInfo off now wifiConnected loaded today tomorrow
            resolutionMinutes).points.getD
          (NPD.fetchNordPoolPriceInfo off now wifiConnected loaded today tomorrow
            resolutionMinutes).currentIndex.toNat {}).price := by
  rcases NPD.fetchNordPool_cases off now wifiConnected loaded today tomorrow
    resolutionMinutes with hfail | ⟨pre, hpos, hle, heq⟩
  · rw [hfail] at hok
    exact Bool.noConfusion hok
  · rw [heq]
    have hform : NPD.applyMovingAverageToState off now loaded pre
        = (NPD.applyMovingAverageCore off now
            (NPD.effectiveMovingAverage (NPD.ingestedStore loaded (NPD.normResState pre)))
            (NPD.normResState pre),
          (NPD.ingestedStore loaded (NPD.normResState pre)).count) := by
      rw [NPD.applyMovingAverageToState,
        if_neg (Nat.pos_iff_ne_zero.mp hpos : ¬ pre.count = 0)]
    have hspec := NPD.applyMovingAverageCore_spec off now
      (NPD.effectiveMovingAverage (NPD.ingestedStore loaded (NPD.normResState pre)))
      (NPD.normResState pre) hpos
    rw [hform]
    have hcnt : (NPD.applyMovingAverageCore off now
        (NPD.effectiveMovingAverage (NPD.ingestedStore loaded (NPD.normResState pre)))
        (NPD.normResState pre)).count = pre.count := hspec.2.2.2.2.1
    refine ⟨⟨?_, ?_⟩, ⟨?_, ?_⟩, ?_, ?_⟩
    · show 1 ≤ (NPD.applyMovingAverageCore off now _ (NPD.normResState pre)).count
      rw [hcnt]
      omega
    · show (NPD.applyMovingAverageCore off now _ (NPD.normResState pre)).count ≤ 60
      rw [hcnt]
      simpa [NPD.kMaxPoints] using hle
    · exact hspec.2.2.2.2.2.1
    · exact hspec.2.2.2.2.2.2.1
    · exact hspec.2.2.2.2.2.2.2.1
    · exact hspec.2.2.2.2.2.2.2.2

/-- C10 witness: a successful concrete fetch (one slot today, tomorrow
replying 204 No Content). -/
theorem c10_fetch_postcondition_witness :
    (1 ≤ (NPD.fetchNordPoolPriceInfo 0 1700000001 true none
        (NPD.FetchDateResult.payload none [NPD.RawEntry.mk "2025-01-01T00:00:00" (some 0)])
        NPD.FetchDateResult.noContent 60).count ∧
      (NPD.fetchNordPoolPriceInfo 0 1700000001 true none
        (NPD.FetchDateResult.payload none [NPD.RawEntry.mk "2025-01-01T00:00:00" (some 0)])
        NPD.FetchDateResult.noContent 60).count ≤ 60) ∧
    (0 ≤ (NPD.fetchNordPoolPriceInfo 0 1700000001 true none
        (NPD.FetchDateResult.payload none [NPD.RawEntry.mk "2025-01-01T00:00:00" (some 0)])
        NPD.FetchDateResult.noContent 60).currentIndex ∧
      (NPD.fetchNordPoolPriceInfo 0 1700000001 true none
        (NPD.FetchDateResult.payload none [NPD.RawEntry.mk "2025-01-01T00:00:00" (some 0)])
        NPD.FetchDateResult.noContent 60).currentIndex
        < ((NPD.fetchNordPoolPriceInfo 0 1700000001 true none
            (NPD.FetchDateResult.payload none [NPD.RawEntry.mk "2025-01-01T00:00:00" (some 0)])
            NPD.FetchDateResult.noContent 60).count : Int)) ∧
    (NPD.fetchNordPoolPriceInfo 0 1700000001 true none
        (NPD.FetchDateResult.payload none [NPD.RawEntry.mk "2025-01-01T00:00:00" (some 0)])
        NPD.FetchDateResult.noContent 60).currentStartsAt
      = ((NPD.fetchNordPoolPriceInfo 0 1700000001 true none
            (NPD.FetchDateResult.payload none [NPD.RawEntry.mk "2025-01-01T00:00:00" (some 0)])
            NPD.FetchDateResult.noContent 60).points.getD
          (NPD.fetchNordPoolPriceInfo 0 1700000001 true none
            (NPD.FetchDateResult.payload none [NPD.RawEntry.mk "2025-01-01T00:00:00" (some 0)])
            NPD.FetchDateResult.noContent 60).currentIndex.toNat {}).startsAt ∧
    (NPD.fetchNordPoolPriceInfo 0 1700000001 true none
        (NPD.FetchDateResult.payload none [NPD.RawEntry.mk "2025-01-01T00:00:00" (some 0)])
        NPD.FetchDateResult.noContent 60).currentPrice
      = ((NPD.fetchNordPoolPriceInfo 0 1700000001 true none
            (NPD.FetchDateResult.payload none [NPD.RawEntry.mk "2025-01-01T00:00:00" (some 0)])
            NPD.FetchDateResult.noContent 60).points.getD
          (NPD.fetchNordPoolPriceInfo 0 1700000001 true none
            (NPD.FetchDateResult.payload none [NPD.RawEntry.mk "2025-01-01T00:00:00" (some 0)])
            NPD.FetchDateResult.noContent 60).currentIndex.toNat {}).price :=
  c10_fetch_postcondition 0 1700000001 true none
    (NPD.FetchDateResult.payload none [NPD.RawEntry.mk "2025-01-01T00:00:00" (some 0)])
    NPD.FetchDateResult.noContent 60 (by rfl)

namespace NPD

/-! ### Catch-up policy facts (claim C7) -/

theorem tomorrow_after_now (off now : Int) :
    now < (localDayNumber off now + 1) * 86400 - off := by
  have hid := Int.fdiv_add_fmod (now + off) 86400
  have hlt := Int.fmod_lt_of_pos (now + off) (show (0:Int) < 86400 by norm_num)
  rw [localDayNumber]
  omega

theorem formatYmd_length_ne_zero (c : Int × Nat × Nat) : (formatYmd c).length ≠ 0 := by
  rw [formatYmd]
  rw [String.length_append, String.length_append, String.length_append,
    String.length_append]
  have hdash : ("-" : String).length = 1 := rfl
  omega

end NPD

/-- C7: past the valid-epoch threshold and today's configured daily-fetch
time, a held snapshot that does not contain tomorrow's calendar date makes
`shouldCatchUpMissedDailyUpdate` return true; a snapshot that does contain
tomorrow's date makes it return false regardless of the time of day; and
it returns false whenever the clock has not passed the valid-epoch
threshold or the fetch time has not been reached yet. -/
theorem c7_catch_up_missed_daily_update (off now : Int) (state : NPD.PriceState)
    (dailyFetchHour dailyFetchMinute validEpochMin : Int) :
    (validEpochMin < now →
      NPD.localDayNumber off now * 86400 + dailyFetchHour * 3600 + dailyFetchMinute * 60
          - off ≤ now →
      NPD.stateContainsDate state
          (NPD.dateKeyFromTime off ((NPD.localDayNumber off now + 1) * 86400 - off)
            validEpochMin) = false →
      NPD.shouldCatchUpMissedDailyUpdate off now state dailyFetchHour dailyFetchMinute
        validEpochMin = true) ∧
    (NPD.stateContainsDate state
        (NPD.dateKeyFromTime off ((NPD.localDayNumber off now + 1) * 86400 - off)
          validEpochMin) = true →
      NPD.shouldCatchUpMissedDailyUpdate off now state dailyFetchHour dailyFetchMinute
        validEpochMin = false) ∧
    (now ≤ validEpochMin →
      NPD.shouldCatchUpMissedDailyUpdate off now state dailyFetchHour dailyFetchMinute
        validEpochMin = false) ∧
    (now < NPD.localDayNumber off now * 86400 + dailyFetchHour * 3600
        + dailyFetchMinute * 60 - off →
      NPD.shouldCatchUpMissedDailyUpdate off now state dailyFetchHour dailyFetchMinute
        validEpochMin = false) := by
  refine ⟨fun hval hpast hmiss => ?_, fun hhas => ?_, fun hlate => ?_, fun hearly => ?_⟩
  · have hc1 : ¬ (NPD.isValidClock now validEpochMin = false) := by
      simp [NPD.isValidClock]
      exact hval
    have htom : ¬ (NPD.isValidClock ((NPD.localDayNumber off now + 1) * 86400 - off)
        validEpochMin = false) := by
      simp [NPD.isValidClock]
      have := NPD.tomorrow_after_now off now
      omega
    have hkey : ¬ ((NPD.dateKeyFromTime off ((NPD.localDayNumber off now + 1) * 86400 - off)
        validEpochMin).length = 0) := by
      rw [NPD.dateKeyFromTime]
      rw [if_neg htom]
      exact NPD.formatYmd_length_ne_zero _
    rw [NPD.shouldCatchUpMissedDailyUpdate, if_neg hc1, if_neg (not_lt.mpr hpast),
      if_neg htom, if_neg hkey, hmiss]
    rfl
  · by_cases hc1 : NPD.isValidClock now validEpochMin = false
    · rw [NPD.shouldCatchUpMissedDailyUpdate, if_pos hc1]
    · by_cases hc2 : now < NPD.localDayNumber off now * 86400 + dailyFetchHour * 3600
          + dailyFetchMinute * 60 - off
      · rw [NPD.shouldCatchUpMissedDailyUpdate, if_neg hc1, if_pos hc2]
      · by_cases hc3 : NPD.isValidClock ((NPD.localDayNumber off now + 1) * 86400 - off)
            validEpochMin = false
        · rw [NPD.shouldCatchUpMissedDailyUpdate, if_neg hc1, if_neg hc2, if_pos hc3]
        · by_cases hc4 : (NPD.dateKeyFromTime off
              ((NPD.localDayNumber off now + 1) * 86400 - off) validEpochMin).length = 0
          · rw [NPD.shouldCatchUpMissedDailyUpdate, if_neg hc1, if_neg hc2, if_neg hc3,
              if_pos hc4]
          · rw [NPD.shouldCatchUpMissedDailyUpdate, if_neg hc1, if_neg hc2, if_neg hc3,
              if_neg hc4, hhas]
            rfl
  · rw [NPD.shouldCatchUpMissedDailyUpdate]
    have hc1 : NPD.isValidClock now validEpochMin = false := by
      simp [NPD.isValidClock]
      omega
    rw [if_pos hc1]
  · by_cases hc1 : NPD.isValidClock now validEpochMin = false
    · rw [NPD.shouldCatchUpMissedDailyUpdate, if_pos hc1]
    · rw [NPD.shouldCatchUpMissedDailyUpdate, if_neg hc1, if_pos hearly]

/-- C7 witness: part one of the theorem at a concrete late-afternoon
clock with an empty held snapshot. -/
theorem c7_catch_up_missed_daily_update_witness :
    NPD.shouldCatchUpMissedDailyUpdate 0 1700000001 {} 13 0 1700000000 = true :=
  (c7_catch_up_missed_daily_update 0 1700000001 {} 13 0 1700000000).1
    (by decide) (by decide) (by decide)

namespace NPD

/-! ### Price cache facts (claim C8) -/

theorem findCurrentPricePointIndex_of_no_match (off now : Int) (state : PriceState)
    (res : Nat)
    (h : ∀ p ∈ state.points, intervalKeyFromIso p.startsAt res
      ≠ currentIntervalKey off now res) :
    findCurrentPricePointIndex off now state res = -1 := by
  simp only [findCurrentPricePointIndex]
  split_ifs with hk
  · rfl
  · exact findPricePointIndexForInterval_of_no_match state _ res h

theorem applyCurrentFromIndex_spec (s : PriceState) (idx : Int) :
    (applyCurrentFromIndex s idx).points = s.points ∧
    (applyCurrentFromIndex s idx).resolutionMinutes = s.resolutionMinutes ∧
    (¬ (idx < 0 ∨ (s.count : Int) ≤ idx) →
      (applyCurrentFromIndex s idx).currentIndex = idx ∧
      (applyCurrentFromIndex s idx).currentStartsAt
        = (s.points.getD idx.toNat {}).startsAt ∧
      (applyCurrentFromIndex s idx).currentLevel = (s.points.getD idx.toNat {}).level ∧
      (applyCurrentFromIndex s idx).currentPrice = (s.points.getD idx.toNat {}).price) := by
  simp only [applyCurrentFromIndex]
  split_ifs with h
  · exact ⟨rfl, rfl, fun hc => absurd h hc⟩
  · exact ⟨rfl, rfl, fun _ => ⟨rfl, rfl, rfl, rfl⟩⟩

end NPD

/-- C8: a persisted snapshot that parses successfully with at least one
slot but whose slots' interval keys do not include the current wall-clock
slot key is rejected by the strict load (`priceCacheLoadIfCurrent`) and
accepted by the lenient load (`priceCacheLoadIfAvailable`) with the
current index falling back to 0 and the denormalized current fields
copied from slot 0. -/
theorem c8_cache_strict_vs_lenient (off now : Int) (expectedSource : String)
    (doc : Option NPD.CacheDoc) (st : NPD.PriceState)
    (hlen : NPD.priceCacheLoadIfAvailable off now expectedSource doc = some st)
    (hmiss : ∀ p ∈ st.points, NPD.intervalKeyFromIso p.startsAt st.resolutionMinutes
      ≠ NPD.currentIntervalKey off now st.resolutionMinutes) :
    NPD.priceCacheLoadIfCurrent off now expectedSource doc = none ∧
    st.currentIndex = 0 ∧
    st.currentStartsAt = (st.points.getD 0 {}).startsAt ∧
    st.currentLevel = (st.points.getD 0 {}).level ∧
    st.currentPrice = (st.points.getD 0 {}).price := by
  cases doc with
  | none => simp [NPD.priceCacheLoadIfAvailable, NPD.priceCacheLoadInternal] at hlen
  | some d =>
    rw [NPD.priceCacheLoadIfAvailable] at hlen
    rw [NPD.priceCacheLoadIfCurrent]
    simp only [NPD.priceCacheLoadInternal] at hlen ⊢
    by_cases h1 : d.version ≠ NPD.kCacheVersion
    · rw [if_pos h1] at hlen
      exact Option.noConfusion hlen
    · rw [if_neg h1] at hlen
      rw [if_neg h1]
      by_cases h2 : expectedSource.length ≠ 0 ∧ d.source ≠ expectedSource
      · rw [if_pos h2] at hlen
        exact Option.noConfusion hlen
      · rw [if_neg h2] at hlen
        rw [if_neg h2]
        cases hdp : d.points with
      | none =>
        simp only [hdp] at hlen
        exact Option.noConfusion hlen
      | some pts =>
        simp only [hdp] at hlen ⊢
        set O := NPD.cacheDocState d pts with hO
        by_cases hca : O.count = 0
        · rw [if_pos hca] at hlen
          exact Option.noConfusion hlen
        · rw [if_neg hca] at hlen
          set idx0 := NPD.findCurrentPricePointIndex off now O O.resolutionMinutes
            with hidx0
          rw [if_neg (by simp : ¬ (idx0 < 0 ∧ (false : Bool) = true))] at hlen
          have hst : st = ({ NPD.applyCurrentFromIndex O (if idx0 < 0 then 0 else idx0)
              with ok := true } : NPD.PriceState) := (Option.some.inj hlen).symm
          subst hst
          have hXpts : ({ NPD.applyCurrentFromIndex O (if idx0 < 0 then 0 else idx0)
              with ok := true } : NPD.PriceState).points = O.points :=
            (NPD.applyCurrentFromIndex_spec O _).1
          have hXres : ({ NPD.applyCurrentFromIndex O (if idx0 < 0 then 0 else idx0)
              with ok := true } : NPD.PriceState).resolutionMinutes = O.resolutionMinutes :=
            (NPD.applyCurrentFromIndex_spec O _).2.1
          have hfind : idx0 = -1 := by
            rw [hidx0]
            refine NPD.findCurrentPricePointIndex_of_no_match off now O O.resolutionMinutes
              (fun p hp => ?_)
            have hp1 : p ∈ ({ NPD.applyCurrentFromIndex O (if idx0 < 0 then 0 else idx0)
                with ok := true } : NPD.PriceState).points := by rw [hXpts]; exact hp
            have := hmiss p hp1
            rw [hXres] at this
            exact this
          have hidx : (if idx0 < 0 then (0 : Int) else idx0) = 0 := by
            rw [hfind]
            decide
          rw [hidx] at hXpts hmiss ⊢
          have hspec := (NPD.applyCurrentFromIndex_spec O 0).2.2 (by
            push_neg
            refine ⟨by norm_num, by omega⟩)
          refine ⟨?_, ?_, ?_, ?_, ?_⟩
          · rw [if_neg hca, if_pos ⟨by rw [hfind]; decide, trivial⟩]
          · show (NPD.applyCurrentFromIndex O 0).currentIndex = 0
            rw [hspec.1]
          · show (NPD.applyCurrentFromIndex O 0).currentStartsAt = _
            rw [hspec.2.1, hXpts]
            rfl
          · show (NPD.applyCurrentFromIndex O 0).currentLevel = _
            rw [hspec.2.2.1, hXpts]
            rfl
          · show (NPD.applyCurrentFromIndex O 0).currentPrice = _
            rw [hspec.2.2.2, hXpts]
            rfl

/-- C8 witness: a concrete one-slot document not covering the current
slot is rejected by the strict load (while the lenient load accepts it,
per the theorem's hypothesis). -/
theorem c8_cache_strict_vs_lenient_witness :
    NPD.priceCacheLoadIfCurrent 0 1700000001 "NORDPOOL"
        (some (NPD.CacheDoc.mk 1 "NORDPOOL" "SEK" 60 false 0
          (some [NPD.CachePoint.mk "2030-01-01T00:00:00" "NORMAL" 1]))) = none :=
  (c8_cache_strict_vs_lenient 0 1700000001 "NORDPOOL"
    (some (NPD.CacheDoc.mk 1 "NORDPOOL" "SEK" 60 false 0
      (some [NPD.CachePoint.mk "2030-01-01T00:00:00" "NORMAL" 1]))) _
    (by rfl) (by decide)).1

/-- C1: the tier classifier returns UNKNOWN when the average is at most
0.0001; otherwise it classifies by the ratio price/average with thresholds
0.60 / 0.90 / 1.15 / 1.40 (the first two inclusive, the last two strict on
the upper side), and the four boundary examples with average 1.00 land in
EXPENSIVE, NORMAL, VERY_CHEAP and CHEAP respectively. -/
theorem c1_tier_classifier (p a : ℚ) :
    (a ≤ 0.0001 → NPD.classifyLevelFromAverage p a = "UNKNOWN") ∧
    (0.0001 < a →
      (p / a ≤ 0.60 → NPD.classifyLevelFromAverage p a = "VERY_CHEAP") ∧
      (0.60 < p / a → p / a ≤ 0.90 → NPD.classifyLevelFromAverage p a = "CHEAP") ∧
      (0.90 < p / a → p / a < 1.15 → NPD.classifyLevelFromAverage p a = "NORMAL") ∧
      (1.15 ≤ p / a → p / a < 1.40 → NPD.classifyLevelFromAverage p a = "EXPENSIVE") ∧
      (1.40 ≤ p / a → NPD.classifyLevelFromAverage p a = "VERY_EXPENSIVE")) ∧
    NPD.classifyLevelFromAverage 1.15 1 = "EXPENSIVE" ∧
    NPD.classifyLevelFromAverage 1.149999 1 = "NORMAL" ∧
    NPD.classifyLevelFromAverage 0.60 1 = "VERY_CHEAP" ∧
    NPD.classifyLevelFromAverage 0.600001 1 = "CHEAP" := by
  refine ⟨fun h => ?_, fun h => ⟨fun h1 => ?_, fun h1 h2 => ?_, fun h1 h2 => ?_,
    fun h1 h2 => ?_, fun h1 => ?_⟩, by norm_num [NPD.classifyLevelFromAverage],
    by norm_num [NPD.classifyLevelFromAverage], by norm_num [NPD.classifyLevelFromAverage],
    by norm_num [NPD.classifyLevelFromAverage]⟩ <;>
    simp only [NPD.classifyLevelFromAverage] <;>
    split_ifs <;> first | rfl | linarith

/-- C1 witness: the classifier evaluated at a concrete in-range input. -/
theorem c1_tier_classifier_witness :
    NPD.classifyLevelFromAverage (1/2) 1 = "VERY_CHEAP" :=
  ((c1_tier_classifier (1/2) 1).2.1 (by norm_num)).1 (by norm_num)

namespace NPD

/-! ### Day-coverage counting: on chronologically sorted day keys, the
run counter of `dayCount` counts exactly the distinct days -/

theorem dayKeysOf_nil : dayKeysOf [] = [] := rfl

theorem dayKeysOf_cons (p : PricePoint) (rest : List PricePoint) :
    dayKeysOf (p :: rest)
      = if p.startsAt.length < 10 then dayKeysOf rest
        else takeChars 10 p.startsAt :: dayKeysOf rest := by
  by_cases h : p.startsAt.length < 10 <;>
    simp [dayKeysOf, List.filterMap_cons, h]

theorem dayCountGo_eq_runsFrom :
    ∀ (l : List PricePoint) (lastDay : String) (n : Nat),
      dayCountGo l lastDay n = n + runsFrom (dayKeysOf l) lastDay
  | [], _, n => by simp [dayCountGo, dayKeysOf, runsFrom]
  | p :: rest, lastDay, n => by
    rw [dayKeysOf_cons]
    by_cases h1 : p.startsAt.length < 10
    · rw [if_pos h1]
      simp only [dayCountGo]
      rw [if_pos h1]
      exact dayCountGo_eq_runsFrom rest lastDay n
    · rw [if_neg h1]
      simp only [dayCountGo, runsFrom]
      rw [if_neg h1]
      by_cases h2 : takeChars 10 p.startsAt ≠ lastDay
      · rw [if_pos h2, if_pos h2, dayCountGo_eq_runsFrom rest]
        omega
      · rw [if_neg h2, if_neg h2]
        exact dayCountGo_eq_runsFrom rest lastDay n

theorem runsFrom_sorted_eq_card :
    ∀ (l : List String) (lastDay : String),
      l.Pairwise (fun a b => strLe a b = true) →
      (∀ e ∈ l, strLe lastDay e = true) →
      runsFrom l lastDay = (l.toFinset.erase lastDay).card
  | [], _, _, _ => by simp [runsFrom]
  | d :: rest, lastDay, hsort, hlb => by
    obtain ⟨hd, hrest⟩ := List.pairwise_cons.mp hsort
    simp only [runsFrom, List.toFinset_cons]
    by_cases hne : d ≠ lastDay
    · rw [if_pos hne]
      have hlnotin : lastDay ∉ insert d rest.toFinset := by
        simp only [Finset.mem_insert, List.mem_toFinset]
        rintro (h | h)
        · exact hne h.symm
        · exact hne (strLe_antisymm (hd lastDay h) (hlb d (List.mem_cons_self d rest)))
      rw [Finset.erase_eq_of_not_mem hlnotin]
      rw [runsFrom_sorted_eq_card rest d hrest hd]
      by_cases hdm : d ∈ rest.toFinset
      · rw [Finset.insert_eq_self.mpr hdm, Finset.card_erase_of_mem hdm]
        have hpos : 0 < rest.toFinset.card := Finset.card_pos.mpr ⟨d, hdm⟩
        omega
      · rw [Finset.card_insert_of_not_mem hdm, Finset.erase_eq_of_not_mem hdm]
        omega
    · rw [if_neg hne]
      push_neg at hne
      subst hne
      rw [Finset.erase_insert_eq_erase]
      exact runsFrom_sorted_eq_card rest d hrest fun e he => hd e he

/-- On a snapshot whose day keys are chronologically sorted (the invariant
the normalizer establishes), the run counter `dayCount` equals the number
of distinct calendar-day prefixes. -/
theorem dayCount_eq_specDistinct (state : PriceState) (hok : state.ok = true)
    (hsort : (dayKeyList state).Pairwise (fun a b => strLe a b = true)) :
    dayCount state = specDistinctDayCount state := by
  rw [dayCount, specDistinctDayCount]
  by_cases hc : state.count = 0
  · rw [if_pos (Or.inr hc)]
    have hnil : state.points = [] := List.length_eq_zero.mp hc
    simp [dayKeyList, dayKeysOf, hnil]
  · rw [if_neg (by push_neg; exact ⟨by simp [hok], hc⟩)]
    rw [dayCountGo_eq_runsFrom state.points "" 0]
    rw [show dayKeyList state = dayKeysOf state.points from rfl] at hsort ⊢
    have hlb : ∀ e ∈ dayKeysOf state.points, strLe "" e = true := by
      intro e _
      obtain ⟨l⟩ := e
      cases l <;> rfl
    rw [runsFrom_sorted_eq_card (dayKeysOf state.points) "" hsort hlb]
    have hnot : "" ∉ (dayKeysOf state.points).toFinset := by
      rw [List.mem_toFinset]
      intro hmem
      simp only [dayKeysOf] at hmem
      rcases List.mem_filterMap.mp hmem with ⟨p, hp, hfp⟩
      by_cases h : p.startsAt.length < 10
      · rw [if_pos h] at hfp
        exact Option.noConfusion hfp
      · rw [if_neg h] at hfp
        have heq := Option.some.inj hfp
        have hdl : p.startsAt.data.length = p.startsAt.length := rfl
        have hlen : (takeChars 10 p.startsAt).length = 10 := by
          show (p.startsAt.data.take 10).length = 10
          rw [List.length_take]
          omega
        rw [heq] at hlen
        exact absurd hlen (by decide)
    rw [Finset.erase_eq_of_not_mem hnot]
    omega

end NPD

/-- C4: for a successful fetch (`ok = true`) against a held snapshot with
`ok = true` and at least one slot, if the fetched snapshot has fewer slots,
or (under the chronological day-key ordering both snapshots satisfy) fewer
distinct calendar-day prefixes among its slot timestamps, then on a due
daily-fetch trigger the handler discards the fetched result: the held
state and all other globals are unchanged and the next fetch is
rescheduled to `now + 600` seconds. -/
theorem c4_coverage_regression (off now : Int) (cfgResolutionMinutes : Nat)
    (fetched : NPD.PriceState) (g : NPD.OrchestratorState)
    (hfok : fetched.ok = true)
    (hgok : g.gState.ok = true) (hgcount : 0 < g.gState.count)
    (hsortf : (NPD.dayKeyList fetched).Pairwise (fun a b => NPD.strLe a b = true))
    (hsortg : (NPD.dayKeyList g.gState).Pairwise (fun a b => NPD.strLe a b = true))
    (hcov : fetched.count < g.gState.count ∨
      NPD.specDistinctDayCount fetched < NPD.specDistinctDayCount g.gState)
    (hclock : NPD.kValidEpochMin < now)
    (hpend : g.gPendingCatchUpRecheck = false)
    (htick : g.gLastMinuteTick = now.fdiv 60)
    (htrig : g.gNextDailyFetch ≠ 0 ∧ g.gNextDailyFetch ≤ now) :
    NPD.handleClockDrivenUpdates off now cfgResolutionMinutes fetched g
      = { g with gNextDailyFetch := now + NPD.kRetryDailyIfUnchangedSec } := by
  have hwrc : NPD.wouldReduceCoverage fetched g.gState = true := by
    rw [NPD.wouldReduceCoverage]
    rw [if_neg (by push_neg; exact ⟨by simp [hfok], by simp [hgok], by omega⟩)]
    rcases hcov with hlt | hday
    · rw [if_pos hlt]
    · by_cases hlt : fetched.count < g.gState.count
      · rw [if_pos hlt]
      · rw [if_neg hlt, decide_eq_true_eq]
        rw [NPD.dayCount_eq_specDistinct fetched hfok hsortf,
            NPD.dayCount_eq_specDistinct g.gState hgok hsortg]
        exact hday
  simp only [NPD.handleClockDrivenUpdates]
  rw [if_neg (show ¬(NPD.isValidClock now NPD.kValidEpochMin = false) by
    simp [NPD.isValidClock]; omega)]
  rw [if_neg (show ¬(g.gPendingCatchUpRecheck = true) by simp [hpend])]
  rw [if_neg (show ¬(now.fdiv 60 ≠ g.gLastMinuteTick) from not_not_intro htick.symm)]
  rw [if_neg htrig.1]
  rw [if_pos htrig]
  simp only [NPD.dailyFetchDecision]
  rw [if_neg (show ¬(fetched.ok = false) by simp [hfok])]
  rw [if_pos hwrc]

/-- C4 witness: a fetched one-slot/one-day snapshot against a held
two-slot/two-day snapshot, at a due trigger instant. -/
theorem c4_coverage_regression_witness :
    NPD.handleClockDrivenUpdates 0 1700000001 60
      { ok := true, points := [NPD.PricePoint.mk "2025-01-01T00:00:00" "NORMAL" 1] }
      (NPD.OrchestratorState.mk
        { ok := true,
          points := [NPD.PricePoint.mk "2025-01-01T00:00:00" "NORMAL" 1,
                     NPD.PricePoint.mk "2025-01-02T01:00:00" "NORMAL" 1] }
        1700000001 (Int.fdiv 1700000001 60) false)
      = NPD.OrchestratorState.mk
          { ok := true,
            points := [NPD.PricePoint.mk "2025-01-01T00:00:00" "NORMAL" 1,
                       NPD.PricePoint.mk "2025-01-02T01:00:00" "NORMAL" 1] }
          (1700000001 + NPD.kRetryDailyIfUnchangedSec) (Int.fdiv 1700000001 60) false :=
  c4_coverage_regression 0 1700000001 60 _ _ rfl rfl (by decide) (by decide) (by decide)
    (Or.inl (by decide)) (by decide) rfl rfl ⟨by decide, by decide⟩
